import Mathlib

/-!
Shallow embedding of the MCP-Agent ingestion-and-retrieval core
(`src/services/UserService.ts`: `WebCrawlerService`, `VectorService`;
`src/services/RAGService.ts`: `RAGService`) and proofs about the
specification's claims.

Modelling conventions:
* JavaScript strings are Lean `String`s; helpers named `js…` reproduce the
  exact JS primitive used by the source (e.g. `split(/\s+/)`, `trim`,
  `Array.prototype.join(' ')`, `[...new Set(xs)]`, `String.prototype.includes`).
* Machine numbers that the source uses as integers are `Nat`; similarity
  scores (JS floats restricted to arithmetic the claims mention) are `ℚ`.
* `Math.max(...xs)` over a possibly-empty array is `WithBot Nat`, with `⊥`
  playing the role of `-Infinity`.
* External providers (HTTP fetch, embedding, index, completion) are function
  parameters; wall-clock timestamps are a `Nat` parameter; rate-limiting
  delays and log statements are elided (they do not affect the data flow).
* Fallible JS code (`throw`) is modelled with `Except AppError` / `Option`.
* Loops whose termination is part of what we verify are modelled with
  explicit fuel and structural recursion, so all definitions evaluate.
-/

/-- `AppError` from `src/types/index.ts`: message plus HTTP status code. -/
structure AppError where
  message : String
  statusCode : Nat
deriving DecidableEq, Repr

/-- JS `text.split(/\s+/)` worker: walks the characters keeping the finished
tokens, the current token and whether the previous character was whitespace
(a maximal whitespace run is one separator). -/
def jsSplitGo (done : List String) (cur : List Char) (lastWs : Bool) : List Char → List String
  | [] => done ++ [String.mk cur]
  | c :: cs =>
    if c.isWhitespace then
      if lastWs then jsSplitGo done cur true cs
      else jsSplitGo (done ++ [String.mk cur]) [] true cs
    else jsSplitGo done (cur ++ [c]) false cs

/-- JS `text.split(/\s+/)`: splits on maximal whitespace runs; a leading or
trailing run contributes an empty-string element, and `"".split(/\s+/) = [""]`. -/
def jsSplitWs (s : String) : List String := jsSplitGo [] [] false s.data

/-- JS `String.prototype.trim`: strip whitespace from both ends. -/
def jsTrim (s : String) : String :=
  String.mk (((s.data.dropWhile Char.isWhitespace).reverse.dropWhile Char.isWhitespace).reverse)

/-- JS `Array.prototype.join(' ')`. -/
def joinSpace : List String → String
  | [] => ""
  | [a] => a
  | a :: b :: rest => a ++ " " ++ joinSpace (b :: rest)

/-- Worker for `jsSetDedup` carrying the set of strings seen so far. -/
def jsSetDedupGo (seen : List String) : List String → List String
  | [] => []
  | x :: xs => if x ∈ seen then jsSetDedupGo seen xs else x :: jsSetDedupGo (seen ++ [x]) xs

/-- JS `[...new Set(xs)]`: removes duplicates keeping first occurrences. -/
def jsSetDedup (l : List String) : List String := jsSetDedupGo [] l

/-- Worker for `jsIncludes`. -/
def hasSubstrGo (pat : List Char) : List Char → Bool
  | [] => pat.isEmpty
  | c :: cs => pat.isPrefixOf (c :: cs) || hasSubstrGo pat cs

/-- JS `s.includes(pat)`: substring containment. -/
def jsIncludes (s pat : String) : Bool := hasSubstrGo pat.data s.data

/-- Split a character list at the first occurrence of `c`: returns the part
before it and, when `c` occurs, the part after it. -/
def splitFirst (c : Char) : List Char → List Char × Option (List Char)
  | [] => ([], none)
  | x :: xs =>
    if x = c then ([], some xs)
    else
      let r := splitFirst c xs
      (x :: r.1, r.2)

/-- Decimal digits of `n`, most significant first, with explicit fuel
(`n + 1` always suffices). -/
def natToStrAux : Nat → Nat → List Char
  | 0, _ => []
  | fuel + 1, n =>
    if n < 10 then [Nat.digitChar n]
    else natToStrAux fuel (n / 10) ++ [Nat.digitChar (n % 10)]

/-- JS number-to-string for the naturals the source interpolates into ids
and messages (`${i}`, `Date.now().toString()`). -/
def natToStr (n : Nat) : String := String.mk (natToStrAux (n + 1) n)

/-- JS `x || d` for an optional numeric request field: `undefined` and `0`
are falsy, so both fall back to the default. -/
def jsOrNat (v : Option Nat) (d : Nat) : Nat :=
  match v with
  | none => d
  | some 0 => d
  | some (n + 1) => n + 1

/-- JS `x || d` for an optional string: `undefined` and `''` fall back. -/
def jsOrStr (v : Option String) (d : String) : String :=
  match v with
  | none => d
  | some s => if s = "" then d else s

/-- JS truthiness of an optional string (`undefined` and `''` are falsy). -/
def jsTruthyStr : Option String → Bool
  | none => false
  | some s => s ≠ ""

/-- Structured form of a parsed absolute http(s) URL, mirroring the fields of
the WHATWG `URL` object that the source reads (`hostname`, `pathname`,
`search`, `hash`, `href`). `search` keeps its leading `?`, `hash` its
leading `#`; an empty path normalizes to `/`. -/
structure Url where
  scheme : String
  host : String
  path : String
  search : String
  hash : String
deriving DecidableEq, Repr

/-- Model of WHATWG `new URL(s)` restricted to the absolute `http(s)://`
URLs this system manipulates: requires an explicit scheme and a non-empty
host, then splits off fragment, query and path in that order. Returns
`none` where the JS constructor throws `TypeError`. -/
def parseUrl (s : String) : Option Url :=
  let cs := s.data
  let schemeRest : Option (String × List Char) :=
    if "http://".data.isPrefixOf cs then some ("http", cs.drop 7)
    else if "https://".data.isPrefixOf cs then some ("https", cs.drop 8)
    else none
  match schemeRest with
  | none => none
  | some (scheme, rest) =>
    let hashSplit := splitFirst '#' rest
    let hash := match hashSplit.2 with
      | none => ""
      | some t => String.mk ('#' :: t)
    let querySplit := splitFirst '?' hashSplit.1
    let search := match querySplit.2 with
      | none => ""
      | some t => String.mk ('?' :: t)
    let hostSplit := splitFirst '/' querySplit.1
    let path := match hostSplit.2 with
      | none => "/"
      | some t => String.mk ('/' :: t)
    if hostSplit.1 = [] then none
    else some ⟨scheme, String.mk hostSplit.1, path, search, hash⟩

/-- `URL.prototype.href` for the URLs produced by `parseUrl`. -/
def Url.href (u : Url) : String :=
  u.scheme ++ "://" ++ u.host ++ u.path ++ u.search ++ u.hash

/-- `WebCrawlerService.normalizeUrl`: parse the URL, clear its fragment and
return its `href`; `none` models the `AppError('Invalid URL provided', 400)`
thrown for an unparseable URL. -/
def normalizeUrl (s : String) : Option String :=
  (parseUrl s).map fun u => Url.href { u with hash := "" }

/-- A heading collected by the page extractor. -/
structure Heading where
  level : Nat
  text : String
  id : Option String
deriving DecidableEq, Repr

/-- The data a successfully fetched HTML page yields before extraction:
what `cheerio` pulls out of the markup.  The fields are the inputs of
`extractPageData` that are read straight from the document (the computed
fields — word count, deduplicated link lists — are derived from these). -/
structure PageInfo where
  title : String
  content : String
  description : String
  author : String
  language : String
  canonical : String
  headings : List Heading
  internalLinks : List String
  externalLinks : List String
deriving DecidableEq, Repr

/-- Outcome of fetching one URL (axios `get` plus the content-type check in
`crawlSinglePage`): an HTML page with its status, a silently skipped
non-HTML response, or a failure with message and optional HTTP status. -/
inductive FetchResult where
  | html (status : Nat) (info : PageInfo)
  | nonHtml
  | failure (msg : String) (status : Option Nat)
deriving DecidableEq, Repr

/-- `CrawledPage` (`src/types/index.ts`), with its `metadata` object
flattened into the record; the wall-clock `crawledAt` field and the fields
no claim touches (keywords, dates, images, `contentType`) are omitted. -/
structure CrawledPage where
  url : String
  title : String
  content : String
  description : String
  author : String
  language : String
  canonical : String
  wordCount : Nat
  internalLinks : List String
  externalLinks : List String
  headings : List Heading
  status : Nat
  depth : Nat
deriving DecidableEq, Repr

/-- An entry of the crawl result's error list. -/
structure CrawlError where
  url : String
  error : String
  status : Option Nat
deriving DecidableEq, Repr

/-- `WebCrawlerConfig` restricted to the fields that shape the traversal
(delay, timeout, user agent and `respectRobotsTxt` only affect I/O timing). -/
structure WebCrawlerConfig where
  maxDepth : Nat
  maxPages : Nat
  maxConcurrent : Nat
  allowedDomains : List String
  excludePatterns : List String
  includePatterns : List String
  followExternalLinks : Bool
deriving DecidableEq, Repr

/-- `WebCrawlerService.defaultConfig` (traversal-relevant fields). -/
def defaultConfig : WebCrawlerConfig :=
  { maxDepth := 3
    maxPages := 50
    maxConcurrent := 3
    allowedDomains := []
    excludePatterns :=
      ["/search?", "/404", "/login", "/register", "/admin",
       ".pdf", ".doc", ".docx", ".xls", ".xlsx", ".ppt", ".pptx",
       ".zip", ".rar", ".tar", ".gz",
       ".jpg", ".jpeg", ".png", ".gif", ".svg", ".ico",
       ".css", ".js", ".woff", ".woff2", ".ttf", ".eot"]
    includePatterns := []
    followExternalLinks := false }

/-- `CrawlRequest` (`src/types/index.ts`); `delay` is omitted (timing only).
Optional fields are `Option`s standing for possibly-`undefined` JS fields. -/
structure CrawlRequest where
  url : String
  maxDepth : Option Nat
  maxPages : Option Nat
  excludePatterns : Option (List String)
  includePatterns : Option (List String)
  followExternalLinks : Option Bool
deriving DecidableEq, Repr

/-- `WebCrawlerService.mergeConfig`: `request.x || default` for the numeric
fields (so an explicit `0` falls back too), `request.x || default` for the
pattern arrays (an explicit empty array is truthy and is kept), and an
`!== undefined` check for `followExternalLinks`. -/
def mergeConfig (request : CrawlRequest) : WebCrawlerConfig :=
  { defaultConfig with
    maxDepth := jsOrNat request.maxDepth defaultConfig.maxDepth
    maxPages := jsOrNat request.maxPages defaultConfig.maxPages
    excludePatterns := request.excludePatterns.getD defaultConfig.excludePatterns
    includePatterns := request.includePatterns.getD defaultConfig.includePatterns
    followExternalLinks := request.followExternalLinks.getD defaultConfig.followExternalLinks }

/-- `WebCrawlerService.extractPageData`: builds the `CrawledPage` from the
extracted document data; the word count tokenizes the content on whitespace
and drops empty tokens, and the link lists are set-deduplicated. -/
def extractPageData (url : String) (depth status : Nat) (info : PageInfo) : CrawledPage :=
  { url
    title := info.title
    content := info.content
    description := info.description
    author := info.author
    language := info.language
    canonical := info.canonical
    wordCount := ((jsSplitWs info.content).filter (· ≠ "")).length
    internalLinks := jsSetDedup info.internalLinks
    externalLinks := jsSetDedup info.externalLinks
    headings := info.headings
    status
    depth }

/-- The exclude-pattern test of `WebCrawlerService.extractUrls`: `'?'`
matches only search-looking query strings, `'#'` matches only same-page
anchors (the referring page's URL always parses for pages produced by the
crawl, so the unreachable unparseable case
answers `false`), and any other pattern is a substring test against the
path or the whole link. -/
def shouldExcludeLink (excludePatterns : List String) (pageUrl link : String) (linkUrl : Url) : Bool :=
  excludePatterns.any fun pattern =>
    if pattern = "?" then
      jsIncludes linkUrl.search "search=" || jsIncludes linkUrl.search "q=" ||
        jsIncludes linkUrl.search "query="
    else if pattern = "#" then
      match parseUrl pageUrl with
      | some currentUrl =>
        decide (0 < linkUrl.hash.length) && linkUrl.path = currentUrl.path &&
          linkUrl.search = currentUrl.search
      | none => false
    else
      jsIncludes linkUrl.path pattern || jsIncludes link pattern

/-- One iteration of the link loop in `WebCrawlerService.extractUrls`:
parse the link (skip on failure), apply the domain allow-list, the exclude
patterns and the include patterns, then strip the fragment; a link that
becomes the empty string is skipped (JS falsiness). -/
def processLink (config : WebCrawlerConfig) (pageUrl link : String) : Option String :=
  match parseUrl link with
  | none => none
  | some linkUrl =>
    if config.allowedDomains.length > 0 ∧ linkUrl.host ∉ config.allowedDomains then none
    else if shouldExcludeLink config.excludePatterns pageUrl link linkUrl then none
    else if config.includePatterns.length > 0 ∧
        ¬ config.includePatterns.any fun pattern =>
          jsIncludes linkUrl.path pattern || jsIncludes link pattern then none
    else
      let cleanUrl := (splitFirst '#' link.data).1
      if cleanUrl = [] then none else some (String.mk cleanUrl)

/-- `WebCrawlerService.extractUrls`: gather the page's internal links (plus
external ones when `followExternalLinks`), filter them through
`processLink`, and deduplicate. -/
def extractUrls (page : CrawledPage) (config : WebCrawlerConfig) : List String :=
  let linksToProcess :=
    if config.followExternalLinks then page.internalLinks ++ page.externalLinks
    else page.internalLinks
  jsSetDedup (linksToProcess.filterMap (processLink config page.url))

/-- `WebCrawlerService.crawlSinglePage`: an already-visited URL yields
nothing; otherwise the URL joins the visited set, a fetch failure appends
an error entry, a non-HTML response is skipped silently, and an HTML
response is extracted into a page. -/
def crawlSinglePage (web : String → FetchResult) (url : String) (depth : Nat)
    (visited : List String) (errors : List CrawlError) :
    List String × List CrawlError × Option CrawledPage :=
  if url ∈ visited then (visited, errors, none)
  else
    let visited := visited ++ [url]
    match web url with
    | .failure msg status => (visited, errors ++ [⟨url, msg, status⟩], none)
    | .nonHtml => (visited, errors, none)
    | .html status info => (visited, errors, some (extractPageData url depth status info))

/-- State of `crawlDocumentation`'s BFS loop: the visited-URL set, the
collected pages, the accumulated errors, and the FIFO frontier of
(URL, depth) pairs. -/
structure CrawlState where
  visited : List String
  pages : List CrawledPage
  errors : List CrawlError
  queue : List (String × Nat)
deriving DecidableEq, Repr

/-- Dispatch one batch: each batch item performs its synchronous
visited-set check-and-add at dispatch time and then fetches; outcomes are
collected in batch order together with the item's depth (batch items run
concurrently but only `crawlSinglePage`'s synchronous prologue touches
shared state, so the sequential pass is faithful). -/
def dispatchBatch (web : String → FetchResult) :
    List (String × Nat) → List String → List CrawlError →
    List String × List CrawlError × List (Nat × Option CrawledPage)
  | [], visited, errors => (visited, errors, [])
  | item :: rest, visited, errors =>
    let r := crawlSinglePage web item.1 item.2 visited errors
    let d := dispatchBatch web rest r.1 r.2.1
    (d.1, d.2.1, (item.2, r.2.2) :: d.2.2)

/-- The inner enqueue loop after a page is pushed: each candidate URL is
enqueued at `depth + 1` only if it is not in the visited set and the
current page count plus frontier size is below `maxPages`. -/
def enqueueNewUrls (config : WebCrawlerConfig) (visited : List String) (pagesLen : Nat) :
    List (String × Nat) → List String → Nat → List (String × Nat)
  | queue, [], _ => queue
  | queue, u :: us, depth =>
    enqueueNewUrls config visited pagesLen
      (if u ∉ visited ∧ pagesLen + queue.length < config.maxPages then
        queue ++ [(u, depth + 1)]
      else queue) us depth

/-- Aggregate the settled batch in order: a fulfilled page is pushed to the
result list and, when its depth is below `maxDepth`, its extracted links
are enqueued. -/
def aggregateResults (config : WebCrawlerConfig) (visited : List String) :
    List (Nat × Option CrawledPage) → List CrawledPage → List (String × Nat) →
    List CrawledPage × List (String × Nat)
  | [], pages, queue => (pages, queue)
  | o :: rest, pages, queue =>
    match o.2 with
    | none => aggregateResults config visited rest pages queue
    | some page =>
      let pages' := pages ++ [page]
      if o.1 < config.maxDepth then
        aggregateResults config visited rest pages'
          (enqueueNewUrls config visited pages'.length queue (extractUrls page config) o.1)
      else aggregateResults config visited rest pages' queue

/-- One iteration of the crawl's `while` loop: splice off a batch of up to
`maxConcurrent` frontier entries, dispatch it, then aggregate. -/
def crawlStep (web : String → FetchResult) (config : WebCrawlerConfig)
    (s : CrawlState) : CrawlState :=
  let batch := s.queue.take config.maxConcurrent
  let rest := s.queue.drop config.maxConcurrent
  let d := dispatchBatch web batch s.visited s.errors
  let a := aggregateResults config d.1 d.2.2 s.pages rest
  { visited := d.1, errors := d.2.1, pages := a.1, queue := a.2 }

/-- The crawl's `while (urlQueue.length > 0 && crawledPages.length <
config.maxPages)` loop, with explicit fuel (the loop terminates; the
claims hold for every fuel, and enough fuel reaches the exit condition). -/
def crawlLoop (web : String → FetchResult) (config : WebCrawlerConfig) :
    Nat → CrawlState → CrawlState
  | 0, s => s
  | fuel + 1, s =>
    if s.queue ≠ [] ∧ s.pages.length < config.maxPages then
      crawlLoop web config fuel (crawlStep web config s)
    else s

/-- The initial crawl state: nothing visited, the frontier seeded with the
normalized base URL at depth 0. -/
def crawlInit (baseUrl : String) : CrawlState :=
  { visited := [], pages := [], errors := [], queue := [(baseUrl, 0)] }

/-- The summary block of a `CrawlResult`; `crawlDepth` is `Math.max` over
the page depths, which is `-Infinity` (here `⊥`) for an empty crawl. -/
structure CrawlSummary where
  totalPages : Nat
  totalWords : Nat
  crawlDepth : WithBot Nat
  uniqueDomains : List String
  errors : List CrawlError
deriving DecidableEq, Repr

/-- The `data` part of a `CrawlResult`. -/
structure CrawlResultData where
  pages : List CrawledPage
  summary : CrawlSummary
deriving DecidableEq, Repr

/-- `CrawlResult` (`crawlDuration` omitted: wall-clock time). -/
structure CrawlResult where
  success : Bool
  message : String
  data : CrawlResultData
deriving DecidableEq, Repr

/-- JS `Math.max(...xs)` over naturals: `-Infinity` (`⊥`) for the empty
array. -/
def jsMathMaxNat (l : List Nat) : WithBot Nat :=
  l.foldl (fun a n => max a (n : WithBot Nat)) ⊥

/-- The configuration `crawlDocumentation` derives: the merged request,
with the allowed-domain list defaulted to the seed's hostname when empty. -/
def crawlConfig (request : CrawlRequest) (baseDomain : String) : WebCrawlerConfig :=
  let config := mergeConfig request
  if config.allowedDomains.length = 0 then
    { config with allowedDomains := [baseDomain] }
  else config

/-- `WebCrawlerService.crawlDocumentation`.  A malformed seed URL makes
`normalizeUrl` throw, which the outer catch re-wraps into
`AppError('Failed to crawl documentation', 500)`.  Otherwise the BFS loop
runs from the seeded frontier and the summary is computed from the final
state.  `baseDomain` is the hostname of the normalized URL (re-parsing the
produced `href` yields the same host), and each
page's hostname is read by re-parsing its URL (crawled page URLs always
parse, so the `getD` default is never used). -/
def crawlDocumentation (web : String → FetchResult) (fuel : Nat)
    (request : CrawlRequest) : Except AppError CrawlResult :=
  match parseUrl request.url with
  | none => .error ⟨"Failed to crawl documentation", 500⟩
  | some u0 =>
    let u := { u0 with hash := "" }
    let baseUrl := u.href
    let baseDomain := u.host
    let config := crawlConfig request baseDomain
    let final := crawlLoop web config fuel (crawlInit baseUrl)
    let totalWords := (final.pages.map (·.wordCount)).sum
    let uniqueDomains :=
      jsSetDedup (final.pages.map fun p => ((parseUrl p.url).map Url.host).getD "")
    .ok
      { success := true
        message := "Successfully crawled " ++ natToStr final.pages.length ++ " pages"
        data :=
          { pages := final.pages
            summary :=
              { totalPages := final.pages.length
                totalWords
                crawlDepth := jsMathMaxNat (final.pages.map (·.depth))
                uniqueDomains
                errors := final.errors } } }

/-- The metadata attached to a `TextChunk` by `processIntoChunks`.  Fields
spread conditionally in JS (`...(x && { x })`) are `Option`s that are `none`
exactly when the value was falsy; `crawledAt` is omitted (wall-clock). -/
structure TextChunkMeta where
  url : String
  title : String
  chunkIndex : Nat
  totalChunks : Nat
  wordCount : Nat
  -- the JS field is named `section` (a Lean keyword)
  sectionHeading : Option String
  headingLevel : Option Nat
  pageDepth : Nat
  domain : String
  description : Option String
  language : Option String
  author : Option String
  canonical : Option String
deriving DecidableEq, Repr

/-- `TextChunk` (`src/types/index.ts`). -/
structure TextChunk where
  content : String
  metadata : TextChunkMeta
deriving DecidableEq, Repr

/-- The window loop of `VectorService.chunkText`
(`for (let i = 0; i < words.length; i += chunkSize - overlap)`), with
explicit fuel: each window is `words.slice(i, i + chunkSize).join(' ')`,
trimmed, and pushed when non-empty.  When `overlap < chunkSize` the step is
positive and fuel `words.length + 1` suffices (`chunkLoop_stable`); when
`overlap ≥ chunkSize` the JS loop never terminates (`i` does not advance
past the end), which `Nat` subtraction models as step `0`. -/
def chunkLoop (fuel : Nat) (words : List String) (i chunkSize step : Nat) : List String :=
  match fuel with
  | 0 => []
  | fuel + 1 =>
    if i < words.length then
      let chunk := joinSpace ((words.drop i).take chunkSize)
      let t := jsTrim chunk
      (if t ≠ "" then [t] else []) ++ chunkLoop fuel words (i + step) chunkSize step
    else []

/-- `VectorService.chunkText`: tokenize on whitespace, slide the window,
and fall back to the whole text as a single chunk when no window was
produced. -/
def chunkText (text : String) (chunkSize overlap : Nat) : List String :=
  let words := jsSplitWs text
  let chunks := chunkLoop (words.length + 1) words 0 chunkSize (chunkSize - overlap)
  if chunks.length > 0 then chunks else [text]

/-- `VectorService.findRelevantHeading`: ignores the position and returns
the page's first heading, if any (the source marks this as a simplification). -/
def findRelevantHeading (page : CrawledPage) (_position : Nat) : Option Heading :=
  page.headings.head?

/-- The chunk record built for window `index` of a page inside
`processIntoChunks` (the body of the `pageChunks.forEach`). -/
def mkTextChunk (page : CrawledPage) (domain : String) (totalChunks : Nat)
    (chunkSize chunkOverlap : Nat) (index : Nat) (chunkContent : String) : TextChunk :=
  let relevantHeading := findRelevantHeading page (index * (chunkSize - chunkOverlap))
  { content := chunkContent
    metadata :=
      { url := page.url
        title := page.title
        chunkIndex := index
        totalChunks
        wordCount := (jsSplitWs chunkContent).length
        sectionHeading :=
          match relevantHeading with
          | some h => if h.text ≠ "" then some h.text else none
          | none => none
        headingLevel :=
          match relevantHeading with
          | some h => if h.level ≠ 0 then some h.level else none
          | none => none
        pageDepth := page.depth
        domain
        description := if page.description ≠ "" then some page.description else none
        language := if page.language ≠ "" then some page.language else none
        author := if page.author ≠ "" then some page.author else none
        canonical := if page.canonical ≠ "" then some page.canonical else none } }

/-- The body of `processIntoChunks`' page loop: parse the page URL (an
unparseable URL is caught, skipping the page by contributing no chunks),
chunk `title + "\n\n" + content`, and tag each window with its metadata. -/
def processPageChunks (chunkSize chunkOverlap : Nat) (page : CrawledPage) : List TextChunk :=
  match parseUrl page.url with
  | none => []
  | some url =>
    let domain := url.host
    let fullText := page.title ++ "\n\n" ++ page.content
    let pageChunks := chunkText fullText chunkSize chunkOverlap
    pageChunks.enum.map fun p =>
      mkTextChunk page domain pageChunks.length chunkSize chunkOverlap p.1 p.2

/-- `VectorService.processIntoChunks`: the page loop appending each page's
chunks to the accumulator. -/
def processIntoChunks (pages : List CrawledPage) (chunkSize chunkOverlap : Nat) :
    List TextChunk :=
  pages.foldl (fun chunks page => chunks ++ processPageChunks chunkSize chunkOverlap page) []

/-- A vector record to be upserted (`VectorEmbedding` in
`src/types/index.ts`): the chunk metadata is spread into the record's
metadata together with the truncated content. -/
structure VectorEmbedding where
  id : String
  values : List ℚ
  meta : TextChunkMeta
  content : String
deriving DecidableEq, Repr

/-- The pre-truncation id string of `VectorService.generateVectorId`:
sanitized hostname and path, `_chunk_`, the chunk index, `_`, and the last
8 digits of `Date.now()` (`now` is the clock parameter); `none` models the
`TypeError` thrown by `new URL` on an unparseable chunk URL. -/
def rawVectorId (now : Nat) (chunk : TextChunk) : Option String :=
  (parseUrl chunk.metadata.url).map fun url =>
    let cleanHostname := String.mk (url.host.data.map fun c => if c.isAlphanum then c else '_')
    let cleanPath := String.mk (url.path.data.map fun c => if c.isAlphanum then c else '_')
    let baseId := cleanHostname ++ cleanPath ++ "_chunk_" ++ natToStr chunk.metadata.chunkIndex
    let timestamp := String.mk ((natToStr now).data.drop ((natToStr now).data.length - 8))
    baseId ++ "_" ++ timestamp

/-- `VectorService.generateVectorId`: the raw id truncated to 512
characters and sanitized to `[a-zA-Z0-9_-]`. -/
def generateVectorId (now : Nat) (chunk : TextChunk) : Option String :=
  (rawVectorId now chunk).map fun raw =>
    String.mk ((raw.data.take 512).map fun c =>
      if c.isAlphanum || c = '_' || c = '-' then c else '_')

/-- The batch grouping of `generateEmbeddings`' loop
(`for (let i = 0; i < chunks.length; i += batchSize)`), with fuel
(`chunks.length + 1` always suffices since `batchSize ≥ 1` in the config). -/
def groupsOfAux (batchSize : Nat) : Nat → List TextChunk → List (List TextChunk)
  | 0, _ => []
  | _, [] => []
  | fuel + 1, l => l.take batchSize :: groupsOfAux batchSize fuel (l.drop batchSize)

/-- The successive slices `chunks.slice(i, i + 100)` that
`generateEmbeddings` sends to the provider, in production order. -/
def embedBatches (chunks : List TextChunk) : List (List TextChunk) :=
  groupsOfAux 100 (chunks.length + 1) chunks

/-- The `batch.forEach((chunk, index) => …)` body of `generateEmbeddings`:
pair each chunk with `response.data[index]` (missing entries are warned
about and skipped), generate its id (`new URL` throwing is caught by the
surrounding try, aborting the whole operation), drop ids that are empty or
longer than 512 characters (warned and skipped), and build the record with
content truncated to Pinecone's metadata limit.  A dimension mismatch only
warns; the record is still stored. -/
def buildBatchEmbeddings (now : Nat) : List (Nat × TextChunk) → List (List ℚ) →
    Except AppError (List VectorEmbedding)
  | [], _ => .ok []
  | (index, chunk) :: rest, vectors =>
    match vectors.get? index with
    | none => buildBatchEmbeddings now rest vectors
    | some values =>
      match generateVectorId now chunk with
      | none => .error ⟨"Failed to generate embeddings", 500⟩
      | some vectorId =>
        if vectorId = "" ∨ vectorId.length > 512 then
          buildBatchEmbeddings now rest vectors
        else
          match buildBatchEmbeddings now rest vectors with
          | .error e => .error e
          | .ok tail =>
            .ok (⟨vectorId, values, chunk.metadata,
                  String.mk (chunk.content.data.take 40000)⟩ :: tail)

/-- The batch loop of `generateEmbeddings`, also returning the list of
input-text lists actually sent to the provider (the call trace): a provider
error aborts the loop and surfaces `AppError('Failed to generate
embeddings', 500)`. -/
def generateEmbeddingsGo (provider : List String → Except String (List (List ℚ)))
    (now : Nat) : List (List TextChunk) →
    List (List String) × Except AppError (List VectorEmbedding)
  | [] => ([], .ok [])
  | batch :: restBatches =>
    let batchTexts := batch.map (·.content)
    match provider batchTexts with
    | .error _ => ([batchTexts], .error ⟨"Failed to generate embeddings", 500⟩)
    | .ok vectors =>
      match buildBatchEmbeddings now batch.enum vectors with
      | .error e => ([batchTexts], .error e)
      | .ok embs =>
        let r := generateEmbeddingsGo provider now restBatches
        (batchTexts :: r.1, r.2.map fun tail => embs ++ tail)

/-- `VectorService.generateEmbeddings` instrumented with its provider-call
trace (first component: the lists of texts of the issued calls, in order). -/
def generateEmbeddingsT (provider : List String → Except String (List (List ℚ)))
    (now : Nat) (chunks : List TextChunk) :
    List (List String) × Except AppError (List VectorEmbedding) :=
  generateEmbeddingsGo provider now (embedBatches chunks)

/-- `VectorService.generateEmbeddings`: the result alone. -/
def generateEmbeddings (provider : List String → Except String (List (List ℚ)))
    (now : Nat) (chunks : List TextChunk) : Except AppError (List VectorEmbedding) :=
  (generateEmbeddingsT provider now chunks).2

/-- The batch grouping of `storeVectors` (same slice loop, batch size 100). -/
def storeBatchesAux : Nat → List VectorEmbedding → List (List VectorEmbedding)
  | 0, _ => []
  | _, [] => []
  | fuel + 1, l => l.take 100 :: storeBatchesAux fuel (l.drop 100)

/-- The per-batch validation of `storeVectors`: a missing id or empty
values array throws (caught by the outer catch and surfaced as
`AppError('Failed to store vectors in Pinecone', 500)`). -/
def validBatch (batch : List VectorEmbedding) : Bool :=
  batch.all fun v => v.id ≠ "" && v.values ≠ []

/-- The batch loop of `storeVectors`, returning the successfully upserted
batches and the outcome: a validation failure or a provider error aborts
the loop (the provider error is re-thrown and the outer catch wraps both
into `AppError('Failed to store vectors in Pinecone', 500)`). -/
def storeVectorsGo (store : List VectorEmbedding → Except String Unit) :
    List (List VectorEmbedding) →
    List (List VectorEmbedding) × Except AppError Unit
  | [] => ([], .ok ())
  | batch :: rest =>
    if ¬ validBatch batch then ([], .error ⟨"Failed to store vectors in Pinecone", 500⟩)
    else
      match store batch with
      | .error _ => ([], .error ⟨"Failed to store vectors in Pinecone", 500⟩)
      | .ok _ =>
        let r := storeVectorsGo store rest
        (batch :: r.1, r.2)

/-- `VectorService.storeVectors` instrumented with the upserted batches. -/
def storeVectorsT (store : List VectorEmbedding → Except String Unit)
    (embeddings : List VectorEmbedding) :
    List (List VectorEmbedding) × Except AppError Unit :=
  storeVectorsGo store (storeBatchesAux (embeddings.length + 1) embeddings)

/-- The request fields of `VectorCrawlRequest` that `crawlAndStore` reads. -/
structure VectorCrawlRequest where
  chunkSize : Option Nat
  chunkOverlap : Option Nat
deriving DecidableEq, Repr

/-- The `data` payload of `VectorStoreResult` restricted to the counts the
claims speak about. -/
structure VectorStoreResult where
  vectorsStored : Nat
  totalChunks : Nat
deriving DecidableEq, Repr

/-- `VectorService.crawlAndStore` instrumented with the upsert trace:
chunk the pages (defaults 1000/200 via `||`), fail on zero chunks, generate
embeddings (an embedding failure is re-thrown unchanged and nothing is
stored), fail on zero embeddings, then store. -/
def crawlAndStoreT (provider : List String → Except String (List (List ℚ)))
    (store : List VectorEmbedding → Except String Unit) (now : Nat)
    (pages : List CrawledPage) (request : VectorCrawlRequest) :
    List (List VectorEmbedding) × Except AppError VectorStoreResult :=
  let chunks := processIntoChunks pages (jsOrNat request.chunkSize 1000)
    (jsOrNat request.chunkOverlap 200)
  if chunks.length = 0 then
    ([], .error ⟨"No text chunks generated from crawled pages", 400⟩)
  else
    match generateEmbeddings provider now chunks with
    | .error e => ([], .error e)
    | .ok embeddings =>
      if embeddings.length = 0 then ([], .error ⟨"No embeddings generated", 500⟩)
      else
        match storeVectorsT store embeddings with
        | (upserts, .error e) => (upserts, .error e)
        | (upserts, .ok _) =>
          (upserts, .ok ⟨embeddings.length, chunks.length⟩)

/-- The metadata object of a Pinecone match as `RAGService` reads it
(`content`, `title`, `url`, `section`, `source`); each field may be absent. -/
structure MatchMeta where
  content : Option String
  title : Option String
  url : Option String
  -- the JS field is named `section` (a Lean keyword)
  sectionHeading : Option String
  source : Option String
deriving DecidableEq, Repr

/-- A raw match in the index provider's query response: `score` and
`metadata` may be absent. -/
structure PineMatch where
  id : String
  score : Option ℚ
  metadata : Option MatchMeta
deriving DecidableEq, Repr

/-- `RAGMatch` (`src/services/RAGService.ts`): the processed match, with
`score` defaulted to `0` by `match.score || 0`. -/
structure RAGMatch where
  id : String
  score : ℚ
  metadata : Option MatchMeta
deriving DecidableEq, Repr

/-- `RAGSearchResponse` (`processingTime` omitted: wall-clock). -/
structure RAGSearchResponse where
  -- the JS field is named `matches` (a Lean keyword)
  matchList : List RAGMatch
  query : String
  «namespace» : String
  totalMatches : Nat
deriving DecidableEq, Repr

/-- `RAGQueryResponse` (`processingTime` omitted: wall-clock). -/
structure RAGQueryResponse where
  answer : String
  sources : List RAGMatch
  query : String
  «namespace» : String
  confidence : ℚ
deriving DecidableEq, Repr

/-- `RAGService.performVectorSearch`, abstracted over the index provider's
response `resp` (`searchResponse.matchList`, which may be absent).  When the
provider returns no match list at all the source throws `Error('No matches
returned from vector search')`, which the surrounding catch re-wraps into
`AppError('Failed to perform vector search', 500)`; a present (possibly
empty) match list is mapped into `RAGMatch`es and returned with
`totalMatches = matches.length`. -/
def performVectorSearch (resp : Option (List PineMatch)) (query ns : String) :
    Except AppError RAGSearchResponse :=
  match resp with
  | none => .error ⟨"Failed to perform vector search", 500⟩
  | some ms =>
    let processed : List RAGMatch := ms.map fun m => ⟨m.id, m.score.getD 0, m.metadata⟩
    .ok ⟨processed, query, ns, processed.length⟩

/-- The context block built for surviving match number `index` (0-based) in
`generateRAGAnswer`:
`[Source N] title - section\nURL: source\nContent: content`. -/
def contextPart (index : Nat) (m : RAGMatch) : String :=
  let md := m.metadata.getD ⟨none, none, none, none, none⟩
  let source := jsOrStr md.url (jsOrStr md.source "Unknown source")
  let title := jsOrStr md.title "Untitled"
  let sec := jsOrStr md.sectionHeading ""
  "[Source " ++ natToStr (index + 1) ++ "] " ++ title ++
    (if sec ≠ "" then " - " ++ sec else "") ++
    "\nURL: " ++ source ++ "\nContent: " ++ (md.content.getD "")

/-- JS `parts.join('\n\n---\n\n')`. -/
def joinContext : List String → String
  | [] => ""
  | [a] => a
  | a :: b :: rest => a ++ "\n\n---\n\n" ++ joinContext (b :: rest)

/-- `RAGService.generateRAGAnswer`, abstracted over the index provider's
response and the completion provider (`completion query context`, the
prompt strings around them being fixed text).  It searches, 404s on an
empty match list, filters matches to those with truthy `metadata.content`,
404s when none survive, builds the numbered context from the survivors,
computes `confidence = min(max(mean(all match scores) * 100, 0), 100)`,
asks the completion provider, and returns the answer together with **all**
search matches as `sources`. -/
def generateRAGAnswer (resp : Option (List PineMatch))
    (completion : String → String → Option String) (query ns : String) :
    Except AppError RAGQueryResponse :=
  match performVectorSearch resp query ns with
  | .error e => .error e
  | .ok searchResponse =>
    if searchResponse.matchList.length = 0 then
      .error ⟨"No relevant information found in the knowledge base", 404⟩
    else
      let contextParts :=
        ((searchResponse.matchList.filter fun m =>
            jsTruthyStr (m.metadata.bind (·.content))).enum.map
          fun p => contextPart p.1 p.2)
      if contextParts.length = 0 then
        .error ⟨"No usable content found in search results", 404⟩
      else
        let context := joinContext contextParts
        let avgScore := ((searchResponse.matchList.map (·.score)).sum) /
          (searchResponse.matchList.length : ℚ)
        let confidence := min (max (avgScore * 100) 0) 100
        match completion query context with
        | none => .error ⟨"Failed to generate intelligent response", 500⟩
        | some answer => .ok ⟨answer, searchResponse.matchList, query, ns, confidence⟩

/-! Definitions taken from the specification's wording (not from the
source), used to compare spec and code where a claim asserts they agree. -/

/-- Modelled from the spec: "the sources actually used" in an answer are
the matches "with retrievable content in metadata". -/
def specSourcesActuallyUsed (ms : List RAGMatch) : List RAGMatch :=
  ms.filter fun m => jsTruthyStr (m.metadata.bind (·.content))

/-- Modelled from the spec: `confidence = clamp(mean(match.score) * 100, 0,
100)` computed over a given list of sources. -/
def specConfidence (ms : List RAGMatch) : ℚ :=
  min (max ((ms.map (·.score)).sum / (ms.length : ℚ) * 100) 0) 100

/-- Modelled from the spec's error taxonomy (§7) and the source's uniform
use of HTTP 404 for its NotFound conditions: an `AppError` is
NotFound-kind exactly when its status code is 404. -/
def isNotFoundError (e : AppError) : Prop := e.statusCode = 404

/-- Modelled from the spec: "slide a window of `chunkSize` tokens with step
`chunkSize - chunkOverlap` until the token stream is exhausted; each window
becomes one chunk, re-joined with single spaces."  Window `k` starts at
`k * step`; there are `⌈tokens.length / step⌉` window start positions
below `tokens.length`. -/
def slideWindowsSpec (tokens : List String) (chunkSize step : Nat) : List String :=
  (List.range ((tokens.length + step - 1) / step)).map fun k =>
    joinSpace ((tokens.drop (k * step)).take chunkSize)

/-! Concrete fixtures used to instantiate and refute claims. -/

/-- A fixture page body: title, short content, and the given internal links. -/
def pinfo (links : List String) : PageInfo :=
  { title := "T"
    content := "some words here"
    description := ""
    author := ""
    language := ""
    canonical := ""
    headings := []
    internalLinks := links
    externalLinks := [] }

/-- Fixture site on host `d.io`: the seed links to `/a`, `/b`, `/c`; `/a`
times out; `/b` links to `/e`, `/f`, `/g`; everything else is a plain page. -/
def webC1 (url : String) : FetchResult :=
  if url = "http://d.io/" then
    .html 200 (pinfo ["http://d.io/a", "http://d.io/b", "http://d.io/c"])
  else if url = "http://d.io/a" then .failure "timeout of 30000ms exceeded" none
  else if url = "http://d.io/b" then
    .html 200 (pinfo ["http://d.io/e", "http://d.io/f", "http://d.io/g"])
  else if url = "http://d.io/c" then .html 200 (pinfo [])
  else if url = "http://d.io/e" then .html 200 (pinfo [])
  else if url = "http://d.io/f" then .html 200 (pinfo [])
  else .failure "connect ECONNREFUSED" none

/-- Crawl request for `webC1`: budget of 4 pages, depth 2, no patterns. -/
def reqC1 : CrawlRequest :=
  { url := "http://d.io/"
    maxDepth := some 2
    maxPages := some 4
    excludePatterns := some []
    includePatterns := some []
    followExternalLinks := some false }

/-- Fixture site on host `e.io`: the seed links to `/a` and `/b`, both of
which link to the same page `/c`. -/
def webC4 (url : String) : FetchResult :=
  if url = "http://e.io/" then .html 200 (pinfo ["http://e.io/a", "http://e.io/b"])
  else if url = "http://e.io/a" then .html 200 (pinfo ["http://e.io/c"])
  else if url = "http://e.io/b" then .html 200 (pinfo ["http://e.io/c"])
  else .html 200 (pinfo [])

/-- Crawl request for `webC4`: generous page budget, no patterns. -/
def reqC4 : CrawlRequest :=
  { url := "http://e.io/"
    maxDepth := some 3
    maxPages := some 10
    excludePatterns := some []
    includePatterns := some []
    followExternalLinks := some false }

/-- The configuration `crawlDocumentation` derives for `reqC4` (the merged
request with the allowed-domain list defaulted to the seed's host). -/
def cfgC4 : WebCrawlerConfig := crawlConfig reqC4 "e.io" 

/-- A web on which every fetch fails. -/
def webFail (_url : String) : FetchResult :=
  .failure "getaddrinfo ENOTFOUND" none

/-- A crawl request with a well-formed seed and all options defaulted. -/
def reqFail : CrawlRequest :=
  { url := "http://x.io/"
    maxDepth := none
    maxPages := none
    excludePatterns := none
    includePatterns := none
    followExternalLinks := none }

/-- A crawl request whose seed URL is malformed. -/
def reqBadSeed : CrawlRequest :=
  { url := "not a url"
    maxDepth := some 2
    maxPages := some 5
    excludePatterns := none
    includePatterns := none
    followExternalLinks := none }

/-- The result `crawlDocumentation webFail 5 reqFail` evaluates to: a
success envelope around zero pages, the seed's error entry, and
`crawlDepth = ⊥` (JS `-Infinity`). -/
def emptyCrawlResult : CrawlResult :=
  { success := true
    message := "Successfully crawled 0 pages"
    data :=
      { pages := []
        summary :=
          { totalPages := 0
            totalWords := 0
            crawlDepth := ⊥
            uniqueDomains := []
            errors := [⟨"http://x.io/", "getaddrinfo ENOTFOUND", none⟩] } } }

/-- The character list of `n` space-separated copies of the token `w`. -/
def wRun : Nat → List Char
  | 0 => []
  | 1 => ['w']
  | n + 2 => 'w' :: ' ' :: wRun (n + 1)

/-- A page text of exactly 2500 whitespace-separated tokens. -/
def t2500 : String := String.mk (wRun 2500)

/-- A minimal chunk used to build embedding fixtures. -/
def mkFixtureChunk (i : Nat) : TextChunk :=
  { content := "c" ++ natToStr i
    metadata :=
      { url := "http://h.io/p"
        title := "t"
        chunkIndex := i
        totalChunks := 150
        wordCount := 1
        sectionHeading := none
        headingLevel := none
        pageDepth := 0
        domain := "h.io"
        description := none
        language := none
        author := none
        canonical := none } }

/-- 150 fixture chunks, in production order. -/
def chunks150 : List TextChunk := (List.range 150).map mkFixtureChunk

/-- An embedding provider that answers batches of exactly 100 inputs and
fails on any other batch size — so it fails on the second of the two calls
for 150 chunks. -/
def providerC5 (texts : List String) : Except String (List (List ℚ)) :=
  if texts.length = 100 then .ok (texts.map fun _ => [0]) else .error "rate limited"

/-- An index-store stub that accepts every batch. -/
def storeOk (_batch : List VectorEmbedding) : Except String Unit := .ok ()

/-- A match with retrievable content and score `1/2`. -/
def m1C3 : RAGMatch :=
  ⟨"a", 1 / 2, some ⟨some "relevant text", some "Doc", some "http://h.io/p", none, none⟩⟩

/-- A match with no metadata (hence no retrievable content) and score `1`. -/
def m2C3 : RAGMatch :=
  ⟨"b", 1, some ⟨none, some "Doc2", none, none, none⟩⟩

/-- The raw provider matches behind `m1C3`, `m2C3`. -/
def pineC3 : List PineMatch :=
  [⟨"a", some (1 / 2), some ⟨some "relevant text", some "Doc", some "http://h.io/p", none, none⟩⟩,
   ⟨"b", some 1, some ⟨none, some "Doc2", none, none, none⟩⟩]

/-- A completion provider that always answers. -/
def complC3 (_query _context : String) : Option String := some "the answer"

/-- What `generateRAGAnswer (some pineC3) complC3 "q" "ns"` evaluates to:
both matches are returned as sources and the confidence averages both
scores (`(1/2 + 1)/2 · 100 = 75`). -/
def rC3 : RAGQueryResponse :=
  { answer := "the answer"
    sources := [m1C3, m2C3]
    query := "q"
    «namespace» := "ns"
    confidence := 75 }

/-- A long-path URL: `http://h.io/` followed by 600 `a`s; its sanitized
host and path exceed the 512-character id budget on their own. -/
def urlLong : String := String.mk ("http://h.io/".data ++ List.replicate 600 'a')

/-- A chunk of the long-path page with the given chunk index. -/
def longChunk (i : Nat) : TextChunk :=
  { content := "x"
    metadata :=
      { url := urlLong
        title := "t"
        chunkIndex := i
        totalChunks := 2
        wordCount := 1
        sectionHeading := none
        headingLevel := none
        pageDepth := 0
        domain := "h.io"
        description := none
        language := none
        author := none
        canonical := none } }

/-- `Except`-scoped projection: the collected page count of a successful
crawl. -/
def okPagesLen (x : Except AppError CrawlResult) : Option Nat :=
  x.toOption.map (·.data.pages.length)

/-- Propositional projection onto the success case of an `Except`. -/
def onOk {ε α : Type} (x : Except ε α) (P : α → Prop) : Prop :=
  match x with
  | .error _ => True
  | .ok a => P a

/-- The result of crawling the `webC1` fixture with `reqC1` (budget 4):
it collects 5 pages. -/
def rC1 : CrawlResult :=
  (crawlDocumentation webC1 10 reqC1).toOption.getD emptyCrawlResult

/-- Decimal value of a digit string, used to invert `natToStrAux`. -/
def natStrVal (l : List Char) : Nat :=
  l.foldl (fun a c => a * 10 + (c.toNat - 48)) 0

set_option maxRecDepth 8000

/-! ### Helper lemmas -/

/-- Characterization of `generateRAGAnswer`'s success case: the sources are
all search matches and the confidence is the clamped scaled mean of all
their scores. -/
theorem ragAnswer_ok_spec (ms : List PineMatch) (compl : String → String → Option String)
    (q ns : String) :
    onOk (generateRAGAnswer (some ms) compl q ns) fun r =>
      r.sources = ms.map (fun m => ⟨m.id, m.score.getD 0, m.metadata⟩) ∧
      r.confidence = specConfidence r.sources ∧
      0 ≤ r.confidence ∧ r.confidence ≤ 100 := by
  simp only [generateRAGAnswer, performVectorSearch, onOk, specConfidence]
  split
  · trivial
  · rename_i r heq
    split at heq
    · exact absurd heq (by simp)
    · split at heq
      · exact absurd heq (by simp)
      · split at heq
        · exact absurd heq (by simp)
        · simp only [Except.ok.injEq] at heq
          subst heq
          exact ⟨rfl, rfl, le_min (le_max_right _ _) (by norm_num), min_le_right _ _⟩

/-! ### C7 -/

/-- C7 (amended): when the index provider returns no match list at all,
`performVectorSearch` raises an error — but an internal-kind
`AppError('Failed to perform vector search', 500)`, not a NotFound-kind
one — while a returned empty match list is a valid non-error result with
`matches = []` and `totalMatches = 0`; the two outcomes are distinguishable
to the caller (an `Except.error` versus an `Except.ok`). -/
theorem c7_missing_match_list_vs_empty (q ns : String) :
    performVectorSearch none q ns = .error ⟨"Failed to perform vector search", 500⟩ ∧
    performVectorSearch (some []) q ns = .ok ⟨[], q, ns, 0⟩ :=
  ⟨rfl, rfl⟩

/-- C7 counterexample: the error raised when the provider returns no match
list has status 500, hence is not NotFound-kind (404) as the claim states. -/
theorem c7_error_not_notfound :
    performVectorSearch none "q" "ns" = .error ⟨"Failed to perform vector search", 500⟩ ∧
    ¬ isNotFoundError ⟨"Failed to perform vector search", 500⟩ :=
  ⟨rfl, by simp [isNotFoundError]⟩

/-! ### C10 -/

/-- C10: a crawl that collects zero pages still returns a success result
(`success = true`, message "Successfully crawled 0 pages") with
`totalPages = 0` and an empty page list, but the summary's `crawlDepth`
is `⊥` — JS `-Infinity` — because `Math.max` is taken over an empty list. -/
theorem c10_zero_pages_crawl (web : String → FetchResult) (fuel : Nat)
    (req : CrawlRequest) (r : CrawlResult)
    (h : crawlDocumentation web fuel req = .ok r) (hp : r.data.pages = []) :
    r.success = true ∧ r.data.summary.totalPages = 0 ∧
    r.data.summary.crawlDepth = ⊥ ∧ r.message = "Successfully crawled 0 pages" := by
  unfold crawlDocumentation at h
  cases hu : parseUrl req.url with
  | none => rw [hu] at h; exact absurd h (by simp)
  | some u0 =>
    rw [hu] at h
    injection h with h
    subst h
    dsimp only at hp ⊢
    rw [hp]
    exact ⟨rfl, rfl, rfl, rfl⟩

/-- C10 witness: crawling `webFail` (every fetch fails) from a well-formed
seed yields exactly `emptyCrawlResult`, which exhibits the claim. -/
theorem c10_zero_pages_crawl_witness :
    crawlDocumentation webFail 5 reqFail = .ok emptyCrawlResult ∧
    (emptyCrawlResult.success = true ∧ emptyCrawlResult.data.summary.totalPages = 0 ∧
      emptyCrawlResult.data.summary.crawlDepth = ⊥ ∧
      emptyCrawlResult.message = "Successfully crawled 0 pages") :=
  ⟨rfl, c10_zero_pages_crawl webFail 5 reqFail emptyCrawlResult rfl rfl⟩

/-! ### C3 -/

/-- C3 (amended): for every successful `generateRAGAnswer` call, the
returned sources are **all** matches returned by the search (including
those without retrievable content), and the confidence equals
`clamp(mean(match.score) * 100, 0, 100)` computed over **all** those
matches, hence is always within [0, 100]. -/
theorem c3_sources_and_confidence (ms : List PineMatch)
    (compl : String → String → Option String) (q ns : String) :
    onOk (generateRAGAnswer (some ms) compl q ns) fun r =>
      r.sources = ms.map (fun m => ⟨m.id, m.score.getD 0, m.metadata⟩) ∧
      r.confidence = specConfidence r.sources ∧
      0 ≤ r.confidence ∧ r.confidence ≤ 100 :=
  ragAnswer_ok_spec ms compl q ns

/-- C3 counterexample: on a search returning one match with content
(score 1/2) and one match without content (score 1), the answer succeeds,
its sources are **not** the actually-used (content-bearing) matches, and
its confidence 75 is **not** the spec's
`clamp(mean over actually-used sources)`, which is 50. -/
theorem c3_counterexample :
    (generateRAGAnswer (some pineC3) complC3 "q" "ns").isOk = true ∧
    onOk (generateRAGAnswer (some pineC3) complC3 "q" "ns") fun r =>
      r.sources ≠ specSourcesActuallyUsed r.sources ∧
      r.confidence = 75 ∧ specConfidence (specSourcesActuallyUsed r.sources) = 50 := by
  refine ⟨rfl, ?_⟩
  have h := ragAnswer_ok_spec pineC3 complC3 "q" "ns"
  revert h
  unfold onOk
  cases hE : generateRAGAnswer (some pineC3) complC3 "q" "ns" with
  | error e => exact fun _ => trivial
  | ok r =>
    intro h
    obtain ⟨hs, hc, _, _⟩ := h
    have hs' : r.sources = [m1C3, m2C3] := by rw [hs]; rfl
    have hused : specSourcesActuallyUsed r.sources = [m1C3] := by rw [hs']; rfl
    refine ⟨?_, ?_, ?_⟩
    · rw [hused, hs']
      intro hcontra
      simpa using congrArg List.length hcontra
    · rw [hc, hs']
      norm_num [specConfidence, m1C3, m2C3]
    · rw [hused]
      norm_num [specConfidence, m1C3]


/-! ### Chunking lemmas and C8 -/

/-- Once the index has passed the end of the token list, the window loop
yields nothing, for any fuel. -/
theorem chunkLoop_of_ge (fuel : Nat) (words : List String) (i cs step : Nat)
    (h : ¬ i < words.length) : chunkLoop fuel words i cs step = [] := by
  cases fuel with
  | zero => rfl
  | succ fuel => simp [chunkLoop, h]

/-- With a positive step, fuel `fuel` is enough as soon as
`words.length ≤ i + fuel * step`: extra fuel does not change the result —
the JS window loop terminates. -/
theorem chunkLoop_stable (step cs : Nat) (words : List String) :
    ∀ fuel extra i, words.length ≤ i + fuel * step →
      chunkLoop (fuel + extra) words i cs step = chunkLoop fuel words i cs step := by
  intro fuel
  induction fuel with
  | zero =>
    intro extra i h
    simp only [Nat.zero_mul, Nat.add_zero] at h
    rw [chunkLoop_of_ge _ _ _ _ _ (by omega), chunkLoop_of_ge _ _ _ _ _ (by omega)]
  | succ fuel ih =>
    intro extra i h
    by_cases hi : i < words.length
    · have h' : words.length ≤ i + step + fuel * step := by
        rw [Nat.succ_mul] at h; omega
      rw [show fuel + 1 + extra = (fuel + extra) + 1 from by omega]
      simp only [chunkLoop, hi, if_true]
      rw [ih extra (i + step) (by omega)]
    · rw [chunkLoop_of_ge _ _ _ _ _ hi, chunkLoop_of_ge _ _ _ _ _ hi]

/-- `chunkText` never returns an empty list: either the window loop
produced chunks, or the whole text is the single fallback chunk. -/
theorem chunkText_ne_nil (text : String) (cs ov : Nat) : chunkText text cs ov ≠ [] := by
  simp only [chunkText]
  split
  · rename_i h
    exact List.length_pos.mp (by omega)
  · simp

/-- Membership in a fold that appends `f page` per page comes from the
initial accumulator or from some page's contribution. -/
theorem foldl_append_mem {α β : Type} (f : α → List β) :
    ∀ (pages : List α) (acc : List β) (c : β),
      c ∈ pages.foldl (fun chunks page => chunks ++ f page) acc →
      c ∈ acc ∨ ∃ page ∈ pages, c ∈ f page := by
  intro pages
  induction pages with
  | nil => intro acc c h; exact Or.inl h
  | cons page pages ih =>
    intro acc c h
    rw [List.foldl_cons] at h
    rcases ih (acc ++ f page) c h with h' | h'
    · rcases List.mem_append.mp h' with h'' | h''
      · exact Or.inl h''
      · exact Or.inr ⟨page, List.mem_cons_self .., h''⟩
    · obtain ⟨p, hp, hcp⟩ := h'
      exact Or.inr ⟨p, List.mem_cons_of_mem _ hp, hcp⟩

/-- Membership in `processIntoChunks` comes from some page's
`processPageChunks`. -/
theorem processIntoChunks_mem (pages : List CrawledPage) (cs ov : Nat) (c : TextChunk)
    (hc : c ∈ processIntoChunks pages cs ov) :
    ∃ page ∈ pages, c ∈ processPageChunks cs ov page := by
  unfold processIntoChunks at hc
  rcases foldl_append_mem (processPageChunks cs ov) pages [] c hc with h | h
  · cases h
  · exact h

/-- Every chunk produced by `processIntoChunks` carries
`totalChunks = pageChunks.length ≥ 1`. -/
theorem processIntoChunks_totalChunks (pages : List CrawledPage) (cs ov : Nat) :
    ∀ c ∈ processIntoChunks pages cs ov, 1 ≤ c.metadata.totalChunks := by
  intro c hc
  obtain ⟨page, _, hcp⟩ := processIntoChunks_mem pages cs ov c hc
  unfold processPageChunks at hcp
  rcases hu : parseUrl page.url with _ | u <;> rw [hu] at hcp
  · cases hcp
  · simp only [List.mem_map] at hcp
    obtain ⟨p, _, hmk⟩ := hcp
    have hlen : 1 ≤ (chunkText (page.title ++ "\n\n" ++ page.content) cs ov).length :=
      List.length_pos.mpr (chunkText_ne_nil _ _ _)
    rw [← hmk]
    exact hlen

/-- The divergent instance behind C8: with `chunkOverlap = chunkSize` the
step is `0`, so on a one-token text every loop iteration emits the same
chunk and the loop runs as long as there is fuel — the JS loop never
terminates. -/
theorem chunkLoop_zero_step_growth (cs : Nat) (hcs : 1 ≤ cs) :
    ∀ fuel, (chunkLoop fuel ["w"] 0 cs (cs - cs)).length = fuel := by
  intro fuel
  induction fuel with
  | zero => rfl
  | succ fuel ih =>
    obtain ⟨c, rfl⟩ : ∃ c, cs = c + 1 := ⟨cs - 1, by omega⟩
    simpa [chunkLoop, jsTrim, joinSpace] using ih

/-- C8: for `chunkOverlap < chunkSize` the window loop of `chunkText`
terminates (its fuel of `words.length + 1` is already stable) and
`chunkText` returns at least one chunk (falling back to the whole text as
a single chunk when no window was produced), so every page processed by
`processIntoChunks` gets `totalChunks ≥ 1`; and the precondition is
required: with `chunkOverlap = chunkSize` the loop's output keeps growing
with fuel and never stabilizes. -/
theorem c8_chunking_terminates_nonempty :
    (∀ text cs ov, ov < cs → chunkText text cs ov ≠ []) ∧
    (∀ text cs ov extra, ov < cs →
      chunkLoop ((jsSplitWs text).length + 1 + extra) (jsSplitWs text) 0 cs (cs - ov) =
        chunkLoop ((jsSplitWs text).length + 1) (jsSplitWs text) 0 cs (cs - ov)) ∧
    (∀ pages cs ov, ov < cs → ∀ c ∈ processIntoChunks pages cs ov,
      1 ≤ c.metadata.totalChunks) ∧
    (∀ cs fuel, 1 ≤ cs → (chunkLoop fuel ["w"] 0 cs (cs - cs)).length = fuel) := by
  refine ⟨fun text cs ov _ => chunkText_ne_nil text cs ov,
          fun text cs ov extra hov => ?_,
          fun pages cs ov _ => processIntoChunks_totalChunks pages cs ov,
          fun cs fuel hcs => chunkLoop_zero_step_growth cs hcs fuel⟩
  exact chunkLoop_stable (cs - ov) cs (jsSplitWs text) ((jsSplitWs text).length + 1) extra 0
    (by have : 1 ≤ cs - ov := by omega
        calc (jsSplitWs text).length ≤ (jsSplitWs text).length + 1 := by omega
        _ = ((jsSplitWs text).length + 1) * 1 := by omega
        _ ≤ ((jsSplitWs text).length + 1) * (cs - ov) :=
            Nat.mul_le_mul_left _ this
        _ = 0 + ((jsSplitWs text).length + 1) * (cs - ov) := by omega)

/-- C8 witness: chunking the two-token text `"hello world"` with
`chunkSize = 2`, `chunkOverlap = 1` terminates with a non-empty chunk list
whose chunks all carry `totalChunks ≥ 1`, while `chunkOverlap = chunkSize
= 2` never stabilizes (6 units of fuel yield 6 chunks). -/
theorem c8_chunking_witness :
    ((1 : Nat) < 2 ∧ chunkText "hello world" 2 1 ≠ []) ∧
    (chunkLoop ((jsSplitWs "hello world").length + 1 + 3) (jsSplitWs "hello world") 0 2 (2 - 1) =
      chunkLoop ((jsSplitWs "hello world").length + 1) (jsSplitWs "hello world") 0 2 (2 - 1)) ∧
    (∀ c ∈ processIntoChunks [extractPageData "http://h.io/" 0 200 (pinfo [])] 2 1,
      1 ≤ c.metadata.totalChunks) ∧
    ((1 : Nat) ≤ 2 ∧ (chunkLoop 6 ["w"] 0 2 (2 - 2)).length = 6) :=
  ⟨⟨by norm_num, c8_chunking_terminates_nonempty.1 "hello world" 2 1 (by norm_num)⟩,
   c8_chunking_terminates_nonempty.2.1 "hello world" 2 1 3 (by norm_num),
   c8_chunking_terminates_nonempty.2.2.1 [extractPageData "http://h.io/" 0 200 (pinfo [])] 2 1
     (by norm_num),
   ⟨by norm_num, c8_chunking_terminates_nonempty.2.2.2 2 6 (by norm_num)⟩⟩

/-! ### Lemmas about the 2500-token fixture and the window loop (C2) -/

/-- `wRun (n + 2)` also decomposes at its tail. -/
theorem wRun_append (n : Nat) : wRun (n + 2) = wRun (n + 1) ++ [' ', 'w'] := by
  induction n with
  | zero => rfl
  | succ n ih =>
    show 'w' :: ' ' :: wRun (n + 2) = ('w' :: ' ' :: wRun (n + 1)) ++ [' ', 'w']
    rw [ih]
    rfl

/-- The `w w … w` character run is its own reverse. -/
theorem wRun_reverse : ∀ n, (wRun n).reverse = wRun n := by
  intro n
  induction n using Nat.strong_induction_on with
  | _ n ih =>
    match n with
    | 0 => rfl
    | 1 => rfl
    | n + 2 =>
      show ('w' :: ' ' :: wRun (n + 1)).reverse = wRun (n + 2)
      rw [List.reverse_cons' , List.reverse_cons', ih (n + 1) (by omega), wRun_append]
      simp [List.concat_eq_append, List.append_assoc]

/-- `wRun (n + 1)` starts with a non-whitespace character, so `dropWhile
isWhitespace` leaves it unchanged. -/
theorem wRun_dropWhile (n : Nat) :
    (wRun (n + 1)).dropWhile Char.isWhitespace = wRun (n + 1) := by
  cases n with
  | zero => rfl
  | succ n =>
    show ('w' :: ' ' :: wRun (n + 1)).dropWhile Char.isWhitespace = _
    rw [List.dropWhile_cons_of_neg (by decide)]
    rfl

/-- Trimming the `w w … w` string is the identity. -/
theorem jsTrim_wRun (n : Nat) :
    jsTrim (String.mk (wRun (n + 1))) = String.mk (wRun (n + 1)) := by
  show String.mk (((wRun (n + 1)).dropWhile Char.isWhitespace).reverse.dropWhile
    Char.isWhitespace).reverse = _
  rw [wRun_dropWhile, wRun_reverse, wRun_dropWhile, wRun_reverse]

/-- The `w w … w` string is non-empty. -/
theorem mk_wRun_ne_empty (n : Nat) : String.mk (wRun (n + 1)) ≠ "" := by
  intro h
  have h' := congrArg String.data h
  cases n <;> exact absurd h' (by simp [wRun])

/-- Splitting `n + 1` space-separated `w` tokens: the split worker emits the
current token extended by `w` and then one `"w"` per remaining token
(whatever the last-was-whitespace flag, since the run starts with `w`). -/
theorem jsSplitGo_wRun : ∀ (n : Nat) (done : List String) (cur : List Char) (b : Bool),
    jsSplitGo done cur b (wRun (n + 1)) =
      done ++ String.mk (cur ++ ['w']) :: List.replicate n "w" := by
  intro n
  induction n with
  | zero =>
    intro done cur b
    show jsSplitGo done cur b ['w'] = _
    simp [jsSplitGo]
  | succ n ih =>
    intro done cur b
    show jsSplitGo done cur b ('w' :: ' ' :: wRun (n + 1)) = _
    rw [show jsSplitGo done cur b ('w' :: ' ' :: wRun (n + 1)) =
        jsSplitGo (done ++ [String.mk (cur ++ ['w'])]) [] true (wRun (n + 1)) from by
      simp [jsSplitGo]]
    rw [ih]
    simp [List.replicate_succ]

/-- Tokenizing the `n + 1`-token fixture text yields `n + 1` copies of `"w"`. -/
theorem jsSplitWs_wRun (n : Nat) :
    jsSplitWs (String.mk (wRun (n + 1))) = List.replicate (n + 1) "w" := by
  show jsSplitGo [] [] false (wRun (n + 1)) = _
  rw [jsSplitGo_wRun]
  simp [List.replicate_succ]

/-- Appending strings appends their character lists. -/
theorem strMk_append (l1 l2 : List Char) :
    String.mk l1 ++ String.mk l2 = String.mk (l1 ++ l2) := by
  have h : (String.mk l1 ++ String.mk l2).data = l1 ++ l2 := by
    rw [String.data_append]
  calc String.mk l1 ++ String.mk l2
      = String.mk ((String.mk l1 ++ String.mk l2).data) := rfl
    _ = String.mk (l1 ++ l2) := congrArg String.mk h

/-- Joining `n + 1` copies of `"w"` with single spaces gives back the
fixture run. -/
theorem joinSpace_replicate (n : Nat) :
    joinSpace (List.replicate (n + 1) "w") = String.mk (wRun (n + 1)) := by
  induction n with
  | zero => rfl
  | succ n ih =>
    have h1 : List.replicate (n + 1) "w" = "w" :: List.replicate n "w" := rfl
    have h2 : joinSpace (List.replicate (n + 2) "w") =
        "w" ++ " " ++ joinSpace (List.replicate (n + 1) "w") := rfl
    rw [h2, ih]
    show String.mk ['w'] ++ String.mk [' '] ++ String.mk (wRun (n + 1)) = _
    rw [strMk_append, strMk_append]
    rfl

/-- Ceiling-division recurrence for the window count: one window at the
current index plus the windows of the rest. -/
theorem ceil_div_succ (d step : Nat) (hstep : 1 ≤ step) (hd : 1 ≤ d) :
    (d + step - 1) / step = (d - step + step - 1) / step + 1 := by
  rcases le_or_lt d step with h | h
  · have h0 : d - step = 0 := by omega
    rw [h0]
    have h1 : d + step - 1 = (d - 1) + step := by omega
    rw [h1, Nat.add_div_right _ (by omega), Nat.div_eq_of_lt (by omega),
      Nat.div_eq_of_lt (by omega)]
  · have h1 : d + step - 1 = (d - 1) + step := by omega
    have h2 : d - step + step - 1 = d - 1 - step + step := by omega
    rw [h1, h2, Nat.add_div_right _ (by omega), Nat.add_div_right _ (by omega)]
    have h3 : d - 1 = (d - 1 - step) + step := by omega
    rw [h3, Nat.add_div_right _ (by omega), Nat.add_sub_cancel]

/-- The window loop equals the spec's sliding windows, trimmed, with the
empty ones dropped — provided the step is positive and there is enough
fuel. -/
theorem chunkLoop_eq_windows (words : List String) (cs step : Nat) (hstep : 1 ≤ step) :
    ∀ fuel i, words.length ≤ i + fuel * step →
      chunkLoop fuel words i cs step =
        ((List.range ((words.length - i + step - 1) / step)).map fun k =>
          jsTrim (joinSpace ((words.drop (i + k * step)).take cs))).filter (· ≠ "") := by
  intro fuel
  induction fuel with
  | zero =>
    intro i h
    simp only [Nat.zero_mul, Nat.add_zero] at h
    have h0 : words.length - i = 0 := by omega
    rw [h0, Nat.div_eq_of_lt (by omega)]
    rfl
  | succ fuel ih =>
    intro i h
    by_cases hi : i < words.length
    · have hcount : (words.length - i + step - 1) / step =
          (words.length - (i + step) + step - 1) / step + 1 := by
        have := ceil_div_succ (words.length - i) step hstep (by omega)
        rw [show words.length - i - step = words.length - (i + step) from by omega] at this
        exact this
      rw [hcount, List.range_succ_eq_map]
      simp only [List.map_cons, List.map_map]
      have hwin : (fun k => jsTrim (joinSpace ((words.drop (i + k * step)).take cs))) ∘
          (· + 1) = fun k => jsTrim (joinSpace ((words.drop (i + step + k * step)).take cs)) := by
        funext k
        simp only [Function.comp_apply]
        rw [show i + (k + 1) * step = i + step + k * step from by ring]
      rw [hwin]
      have hrec := ih (i + step) (by rw [Nat.succ_mul] at h; omega)
      show chunkLoop (fuel + 1) words i cs step = _
      simp only [chunkLoop, hi, if_true]
      rw [hrec]
      simp only [Nat.zero_mul, Nat.add_zero]
      by_cases ht : jsTrim (joinSpace ((words.drop i).take cs)) = ""
      · simp [List.filter_cons, ht]
      · simp [List.filter_cons, ht]
    · rw [chunkLoop_of_ge _ _ _ _ _ hi]
      have h0 : words.length - i = 0 := by omega
      rw [h0, Nat.div_eq_of_lt (by omega)]
      rfl

/-- Chunking the 2500-token fixture with `chunkSize = 1000`,
`chunkOverlap = 200` yields the four windows starting at token offsets
0, 800, 1600 and 2400, of sizes 1000, 1000, 900 and 100. -/
theorem chunkText_t2500 :
    chunkText t2500 1000 200 =
      [String.mk (wRun 1000), String.mk (wRun 1000),
       String.mk (wRun 900), String.mk (wRun 100)] := by
  have hw : jsSplitWs t2500 = List.replicate 2500 "w" := jsSplitWs_wRun 2499
  simp only [chunkText, hw, List.length_replicate]
  rw [chunkLoop_eq_windows (List.replicate 2500 "w") 1000 800 (by norm_num) 2501 0
    (by simp only [List.length_replicate]; norm_num)]
  simp only [List.length_replicate]
  rw [show (2500 - 0 + 800 - 1) / 800 = 4 from by norm_num,
    show List.range 4 = [0, 1, 2, 3] from rfl]
  simp only [List.map_cons, List.map_nil, List.drop_replicate, List.take_replicate]
  norm_num
  have j1 : joinSpace (List.replicate 1000 "w") = String.mk (wRun 1000) :=
    joinSpace_replicate 999
  have j2 : joinSpace (List.replicate 900 "w") = String.mk (wRun 900) :=
    joinSpace_replicate 899
  have j3 : joinSpace (List.replicate 100 "w") = String.mk (wRun 100) :=
    joinSpace_replicate 99
  have t1 : jsTrim (String.mk (wRun 1000)) = String.mk (wRun 1000) := jsTrim_wRun 999
  have t2 : jsTrim (String.mk (wRun 900)) = String.mk (wRun 900) := jsTrim_wRun 899
  have t3 : jsTrim (String.mk (wRun 100)) = String.mk (wRun 100) := jsTrim_wRun 99
  have e1 : String.mk (wRun 1000) ≠ "" := mk_wRun_ne_empty 999
  have e2 : String.mk (wRun 900) ≠ "" := mk_wRun_ne_empty 899
  have e3 : String.mk (wRun 100) ≠ "" := mk_wRun_ne_empty 99
  rw [j1, j2, j3, t1, t2, t3]
  simp [List.filter_cons, e1, e2, e3]

/-- C2 (amended): chunking tokenizes the text on whitespace (JS `split`
semantics) and slides a window of `chunkSize` tokens with step `chunkSize -
chunkOverlap` over every start offset below the token count, each window
re-joined with single spaces (then trimmed, empty windows dropped, with the
whole text as fallback when no window survives).  In particular the window
starts do not stop at the last full window: chunking a 2500-token page with
`chunkSize = 1000, chunkOverlap = 200` yields **4** chunks of token-window
sizes [1000, 1000, 900, 100]. -/
theorem c2_window_mechanics :
    (∀ text cs ov, ov < cs →
      chunkText text cs ov =
        (if (((slideWindowsSpec (jsSplitWs text) cs (cs - ov)).map jsTrim).filter
              (· ≠ "")).length > 0 then
          ((slideWindowsSpec (jsSplitWs text) cs (cs - ov)).map jsTrim).filter (· ≠ "")
        else [text])) ∧
    (chunkText t2500 1000 200).map (fun c => (jsSplitWs c).length) =
      [1000, 1000, 900, 100] := by
  constructor
  · intro text cs ov hov
    have hstep : 1 ≤ cs - ov := by omega
    have hfuel : (jsSplitWs text).length ≤ 0 + ((jsSplitWs text).length + 1) * (cs - ov) :=
      calc (jsSplitWs text).length ≤ (jsSplitWs text).length + 1 := by omega
        _ = ((jsSplitWs text).length + 1) * 1 := by omega
        _ ≤ ((jsSplitWs text).length + 1) * (cs - ov) := Nat.mul_le_mul_left _ hstep
        _ = 0 + ((jsSplitWs text).length + 1) * (cs - ov) := by omega
    simp only [chunkText]
    rw [chunkLoop_eq_windows (jsSplitWs text) cs (cs - ov) hstep ((jsSplitWs text).length + 1)
      0 hfuel]
    simp only [slideWindowsSpec, List.map_map, Nat.sub_zero, Nat.zero_add, Function.comp_def]
  · rw [chunkText_t2500]
    have s1 : jsSplitWs (String.mk (wRun 1000)) = List.replicate 1000 "w" := jsSplitWs_wRun 999
    have s2 : jsSplitWs (String.mk (wRun 900)) = List.replicate 900 "w" := jsSplitWs_wRun 899
    have s3 : jsSplitWs (String.mk (wRun 100)) = List.replicate 100 "w" := jsSplitWs_wRun 99
    simp [s1, s2, s3]

/-- C2 counterexample: chunking the 2500-token page with `chunkSize = 1000,
chunkOverlap = 200` yields 4 chunks, not the 3 chunks of sizes
[1000, 1000, 700] that the claim states (the loop also emits the windows
starting at 1600 and 2400, of sizes 900 and 100). -/
theorem c2_counterexample :
    (chunkText t2500 1000 200).length = 4 ∧ (4 : Nat) ≠ 3 :=
  ⟨by rw [chunkText_t2500]; rfl, by norm_num⟩

/-- C2 witness: the window mechanics instantiated on the two-token text
`"hello world"` with `chunkSize = 2, chunkOverlap = 1`. -/
theorem c2_window_mechanics_witness :
    (1 : Nat) < 2 ∧
    chunkText "hello world" 2 1 =
      (if (((slideWindowsSpec (jsSplitWs "hello world") 2 (2 - 1)).map jsTrim).filter
            (· ≠ "")).length > 0 then
        ((slideWindowsSpec (jsSplitWs "hello world") 2 (2 - 1)).map jsTrim).filter (· ≠ "")
      else ["hello world"]) :=
  ⟨by norm_num, c2_window_mechanics.1 "hello world" 2 1 (by norm_num)⟩

/-! ### Embedding batches and C5 -/

/-- Unfolding the batch grouping on a non-empty list. -/
theorem groupsOfAux_cons (bs fuel : Nat) (l : List TextChunk) (hl : l ≠ []) :
    groupsOfAux bs (fuel + 1) l = l.take bs :: groupsOfAux bs fuel (l.drop bs) := by
  cases l with
  | nil => exact absurd rfl hl
  | cons a l => rfl

/-- The batch grouping of a 150-chunk list is the two slices of 100 and 50
chunks, in order, and concatenating them restores the input. -/
theorem embedBatches_150 (chunks : List TextChunk) (h : chunks.length = 150) :
    embedBatches chunks = [chunks.take 100, chunks.drop 100] := by
  have h1 : chunks ≠ [] := by
    intro hnil; rw [hnil] at h; exact absurd h (by norm_num)
  have h2 : chunks.drop 100 ≠ [] := by
    intro hnil
    have := congrArg List.length hnil
    rw [List.length_drop, h] at this
    exact absurd this (by norm_num)
  have ht : (chunks.drop 100).take 100 = chunks.drop 100 :=
    List.take_of_length_le (by rw [List.length_drop, h]; norm_num)
  have hd : (chunks.drop 100).drop 100 = [] := by
    rw [List.drop_drop]
    exact List.drop_eq_nil_of_le (by rw [h]; norm_num)
  unfold embedBatches
  rw [h, groupsOfAux_cons _ _ _ h1, groupsOfAux_cons _ _ _ h2, ht, hd]
  rfl

/-- When every chunk URL in the pair list parses, the per-batch record
builder never throws. -/
theorem buildBatchEmbeddings_ok (now : Nat) :
    ∀ (pairs : List (Nat × TextChunk)) (vectors : List (List ℚ)),
      (∀ p ∈ pairs, (parseUrl (p.2).metadata.url).isSome) →
      ∃ embs, buildBatchEmbeddings now pairs vectors = .ok embs := by
  intro pairs
  induction pairs with
  | nil => exact fun vectors _ => ⟨[], rfl⟩
  | cons p rest ih =>
    intro vectors hparse
    obtain ⟨i, chunk⟩ := p
    have hc : (parseUrl chunk.metadata.url).isSome :=
      hparse (i, chunk) (List.mem_cons_self ..)
    obtain ⟨u, hu⟩ := Option.isSome_iff_exists.mp hc
    obtain ⟨embs, hembs⟩ := ih vectors fun q hq => hparse q (List.mem_cons_of_mem _ hq)
    cases hv : vectors.get? i with
    | none => exact ⟨embs, by simp only [buildBatchEmbeddings, hv]; exact hembs⟩
    | some values =>
      have hid : ∃ id, generateVectorId now chunk = some id := by
        simp [generateVectorId, rawVectorId, hu]
      obtain ⟨id, hid⟩ := hid
      by_cases hskip : id = "" ∨ id.length > 512
      · exact ⟨embs, by simp only [buildBatchEmbeddings, hv, hid, hskip, if_true]; exact hembs⟩
      · refine ⟨⟨id, values, chunk.metadata, String.mk (chunk.content.data.take 40000)⟩ :: embs,
          ?_⟩
        simp only [buildBatchEmbeddings, hv, hid, hskip, if_false]
        rw [hembs]

/-- C5: embedding processes chunks in fixed-size batches of 100 in
production order — for 150 chunks the provider is called exactly twice,
with the 100-chunk and then the 50-chunk slice (their concatenation is the
input); a failing second call aborts the whole embedding operation with
`AppError('Failed to generate embeddings', 500)` and no partial embedding
set; and when embedding fails, `crawlAndStore` re-throws that error and
upserts nothing at all. -/
theorem c5_batching_fail_fast :
    (∀ chunks : List TextChunk, chunks.length = 150 →
      (embedBatches chunks).map List.length = [100, 50] ∧
      (embedBatches chunks).flatten = chunks) ∧
    (∀ (provider : List String → Except String (List (List ℚ))) (now : Nat)
      (chunks : List TextChunk), chunks.length = 150 →
      (∀ c ∈ chunks, (parseUrl c.metadata.url).isSome) →
      (provider ((chunks.take 100).map (·.content))).isOk = true →
      (provider ((chunks.drop 100).map (·.content))).isOk = false →
      (generateEmbeddingsT provider now chunks).1 =
        [(chunks.take 100).map (·.content), (chunks.drop 100).map (·.content)] ∧
      (generateEmbeddingsT provider now chunks).2 =
        .error ⟨"Failed to generate embeddings", 500⟩) ∧
    (∀ (provider : List String → Except String (List (List ℚ)))
      (store : List VectorEmbedding → Except String Unit) (now : Nat)
      (pages : List CrawledPage) (request : VectorCrawlRequest) (e : AppError),
      (processIntoChunks pages (jsOrNat request.chunkSize 1000)
        (jsOrNat request.chunkOverlap 200)).length ≠ 0 →
      generateEmbeddings provider now (processIntoChunks pages
        (jsOrNat request.chunkSize 1000) (jsOrNat request.chunkOverlap 200)) = .error e →
      crawlAndStoreT provider store now pages request = ([], .error e)) := by
  refine ⟨?_, ?_, ?_⟩
  · intro chunks h
    rw [embedBatches_150 chunks h]
    refine ⟨?_, ?_⟩
    · simp [List.length_take, List.length_drop, h]
    · simp [List.take_append_drop]
  · intro provider now chunks h hparse hp1 hp2
    rw [generateEmbeddingsT, embedBatches_150 chunks h]
    obtain ⟨vs1, hvs1⟩ : ∃ vs, provider ((chunks.take 100).map (·.content)) = .ok vs := by
      cases hv : provider ((chunks.take 100).map (·.content)) with
      | error e => rw [hv] at hp1; exact absurd hp1 (by simp [Except.isOk, Except.toBool])
      | ok vs => exact ⟨vs, rfl⟩
    obtain ⟨e2, he2⟩ : ∃ e, provider ((chunks.drop 100).map (·.content)) = .error e := by
      cases hv : provider ((chunks.drop 100).map (·.content)) with
      | error e => exact ⟨e, rfl⟩
      | ok vs => rw [hv] at hp2; exact absurd hp2 (by simp [Except.isOk, Except.toBool])
    obtain ⟨embs1, hembs1⟩ := buildBatchEmbeddings_ok now (chunks.take 100).enum vs1
      (fun p hp => hparse p.2 (List.take_subset _ _ (List.snd_mem_of_mem_enum hp)))
    simp only [generateEmbeddingsGo, hvs1, hembs1, he2]
    exact ⟨trivial, rfl⟩
  · intro provider store now pages request e hne hfail
    unfold crawlAndStoreT
    simp only [hne, if_false, hfail]

/-- C5 witness: 150 fixture chunks against a provider that accepts the
first (100-element) batch and rejects the second (50-element) one — two
calls are traced, the operation aborts, and `crawlAndStore` (here on the
small fixture page, whose batch the provider also rejects) stores nothing. -/
theorem c5_batching_fail_fast_witness :
    (chunks150.length = 150 ∧
      (embedBatches chunks150).map List.length = [100, 50] ∧
      (embedBatches chunks150).flatten = chunks150) ∧
    ((generateEmbeddingsT providerC5 0 chunks150).1 =
        [(chunks150.take 100).map (·.content), (chunks150.drop 100).map (·.content)] ∧
      (generateEmbeddingsT providerC5 0 chunks150).2 =
        .error ⟨"Failed to generate embeddings", 500⟩) ∧
    crawlAndStoreT providerC5 storeOk 0 [extractPageData "http://h.io/" 0 200 (pinfo [])]
      ⟨some 2, some 1⟩ = ([], .error ⟨"Failed to generate embeddings", 500⟩) := by
  refine ⟨⟨by decide, c5_batching_fail_fast.1 chunks150 (by decide)⟩, ?_, ?_⟩
  · exact c5_batching_fail_fast.2.1 providerC5 0 chunks150 (by decide) (by decide)
      (by decide) (by decide)
  · exact c5_batching_fail_fast.2.2 providerC5 storeOk 0
      [extractPageData "http://h.io/" 0 200 (pinfo [])] ⟨some 2, some 1⟩
      ⟨"Failed to generate embeddings", 500⟩ (by decide) (by rfl)

/-! ### Vector-id lemmas and C9 -/

/-- Digit characters are alphanumeric and decode back to their value. -/
theorem digitChar_props : ∀ d, d < 10 →
    (Nat.digitChar d).isAlphanum = true ∧ (Nat.digitChar d).toNat - 48 = d := by
  decide

/-- `natStrVal` peels off a trailing digit. -/
theorem natStrVal_append (l : List Char) (c : Char) :
    natStrVal (l ++ [c]) = natStrVal l * 10 + (c.toNat - 48) := by
  unfold natStrVal
  rw [List.foldl_append]
  rfl

/-- `natStrVal` inverts `natToStrAux` whenever the fuel covers the number
of digits. -/
theorem natStrVal_natToStrAux : ∀ fuel n, n < 10 ^ fuel →
    natStrVal (natToStrAux fuel n) = n := by
  intro fuel
  induction fuel with
  | zero =>
    intro n h
    interval_cases n
    rfl
  | succ fuel ih =>
    intro n h
    by_cases h10 : n < 10
    · simp only [natToStrAux, h10, if_true]
      have := (digitChar_props n h10).2
      unfold natStrVal
      simp [this]
    · simp only [natToStrAux, h10, if_false]
      rw [natStrVal_append, ih (n / 10) ?_, (digitChar_props (n % 10) (Nat.mod_lt _ (by omega))).2]
      · omega
      · rw [Nat.div_lt_iff_lt_mul (by omega)]
        calc n < 10 ^ (fuel + 1) := h
          _ = 10 ^ fuel * 10 := by ring

/-- Every natural is below `10 ^ (n + 1)`. -/
theorem lt_ten_pow_succ (n : Nat) : n < 10 ^ (n + 1) :=
  lt_of_lt_of_le (Nat.lt_pow_self (by norm_num) n)
    (Nat.pow_le_pow_right (by norm_num) (by omega))

/-- `natToStr` is injective — distinct chunk indices render to distinct
digit strings. -/
theorem natToStr_inj (m n : Nat) (h : natToStr m = natToStr n) : m = n := by
  have hd : natToStrAux (m + 1) m = natToStrAux (n + 1) n := congrArg String.data h
  have hm := natStrVal_natToStrAux (m + 1) m (lt_ten_pow_succ m)
  have hn := natStrVal_natToStrAux (n + 1) n (lt_ten_pow_succ n)
  rw [← hm, ← hn, hd]

/-- All characters produced by `natToStrAux` are alphanumeric digits. -/
theorem natToStrAux_alnum : ∀ fuel n, ∀ c ∈ natToStrAux fuel n, c.isAlphanum = true := by
  intro fuel
  induction fuel with
  | zero => intro n c hc; cases hc
  | succ fuel ih =>
    intro n c hc
    by_cases h10 : n < 10
    · simp only [natToStrAux, h10, if_true, List.mem_singleton] at hc
      rw [hc]
      exact (digitChar_props n h10).1
    · simp only [natToStrAux, h10, if_false, List.mem_append, List.mem_singleton] at hc
      rcases hc with hc | hc
      · exact ih (n / 10) c hc
      · rw [hc]
        exact (digitChar_props (n % 10) (Nat.mod_lt _ (by omega))).1

/-- Unpacking `rawVectorId`: the characters of the raw id, grouped as the
sanitized host and path, the `_chunk_` marker, the decimal chunk index,
and the underscore-prefixed timestamp suffix. -/
theorem rawVectorId_data (now : Nat) (chunk : TextChunk) (u : Url)
    (hu : parseUrl chunk.metadata.url = some u) (r : String)
    (hr : rawVectorId now chunk = some r) :
    r.data =
      (u.host.data.map fun c => if c.isAlphanum then c else '_') ++
      ((u.path.data.map fun c => if c.isAlphanum then c else '_') ++
      ("_chunk_".data ++
      (natToStrAux (chunk.metadata.chunkIndex + 1) chunk.metadata.chunkIndex ++
      ('_' :: ((natToStr now).data.drop ((natToStr now).data.length - 8)))))) := by
  unfold rawVectorId at hr
  rw [hu] at hr
  simp only [Option.map_some', Option.some.injEq] at hr
  rw [← hr]
  simp [String.data_append, List.append_assoc]
  rfl

/-- Every character of a raw id is alphanumeric or an underscore. -/
theorem rawVectorId_chars (now : Nat) (chunk : TextChunk) (r : String)
    (hr : rawVectorId now chunk = some r) :
    ∀ c ∈ r.data, c.isAlphanum = true ∨ c = '_' := by
  cases hu : parseUrl chunk.metadata.url with
  | none => rw [rawVectorId, hu] at hr; cases hr
  | some u =>
    intro c hc
    rw [rawVectorId_data now chunk u hu r hr] at hc
    have hclean : ∀ (l : List Char),
        c ∈ l.map (fun c => if c.isAlphanum then c else '_') →
        c.isAlphanum = true ∨ c = '_' := by
      intro l hm
      obtain ⟨x, _, hx⟩ := List.mem_map.mp hm
      by_cases hax : x.isAlphanum
      · left; rw [← hx]; simp [hax]
      · right; rw [← hx]; simp [hax]
    rcases List.mem_append.mp hc with hc | hc
    · exact hclean _ hc
    rcases List.mem_append.mp hc with hc | hc
    · exact hclean _ hc
    rcases List.mem_append.mp hc with hc | hc
    · exact (by decide : ∀ c ∈ "_chunk_".data, c.isAlphanum = true ∨ c = '_') c hc
    rcases List.mem_append.mp hc with hc | hc
    · exact Or.inl (natToStrAux_alnum _ _ c hc)
    rcases List.mem_cons.mp hc with rfl | hc
    · exact Or.inr rfl
    · exact Or.inl (natToStrAux_alnum _ _ c (List.drop_subset _ _ hc))

/-- When the raw id fits in 512 characters, truncation and sanitization
leave it unchanged. -/
theorem generateVectorId_of_short (now : Nat) (chunk : TextChunk) (r : String)
    (hr : rawVectorId now chunk = some r) (hlen : r.length ≤ 512) :
    generateVectorId now chunk = some r := by
  unfold generateVectorId
  rw [hr]
  simp only [Option.map_some', Option.some.injEq]
  rw [List.take_of_length_le hlen]
  have hid : ∀ c ∈ r.data, (if c.isAlphanum || c = '_' || c = '-' then c else '_') = c := by
    intro c hc
    rcases rawVectorId_chars now chunk r hr c hc with h | h
    · simp [h]
    · simp [h]
  calc String.mk (r.data.map fun c => if c.isAlphanum || c = '_' || c = '-' then c else '_')
      = String.mk (r.data.map id) := congrArg String.mk (List.map_congr_left hid)
    _ = r := by rw [List.map_id]

/-- Raw ids of same-URL chunks with distinct indices differ (same clock):
cancel the shared prefix and suffix and use decimal-rendering injectivity. -/
theorem rawVectorId_inj_chunkIndex (now : Nat) (c1 c2 : TextChunk)
    (hurl : c1.metadata.url = c2.metadata.url)
    (hidx : c1.metadata.chunkIndex ≠ c2.metadata.chunkIndex)
    (r1 r2 : String) (h1 : rawVectorId now c1 = some r1)
    (h2 : rawVectorId now c2 = some r2) : r1 ≠ r2 := by
  intro heq
  cases hu : parseUrl c2.metadata.url with
  | none => rw [rawVectorId, hu] at h2; cases h2
  | some u =>
    have hd1 := rawVectorId_data now c1 u (by rw [hurl]; exact hu) r1 h1
    have hd2 := rawVectorId_data now c2 u hu r2 h2
    have hdata : r1.data = r2.data := congrArg String.data heq
    rw [hd1, hd2] at hdata
    have hx := List.append_cancel_left hdata
    have hy := List.append_cancel_left hx
    have hz := List.append_cancel_left hy
    have hw := List.append_cancel_right hz
    exact hidx (natToStr_inj _ _ (congrArg String.mk hw))

/-- C9 (amended): every generated vector id is non-empty, at most 512
characters, and sanitized to `[a-zA-Z0-9_-]`; and ids are unique among the
chunks of one page in a batch **provided the raw id is not truncated**:
for chunks with the same URL, distinct chunk indices and raw ids of at
most 512 characters, the generated ids differ. -/
theorem c9_vector_id_validity_uniqueness :
    (∀ now chunk id, generateVectorId now chunk = some id →
      id ≠ "" ∧ id.length ≤ 512 ∧
      ∀ c ∈ id.data, c.isAlphanum = true ∨ c = '_' ∨ c = '-') ∧
    (∀ now c1 c2 r1 r2, c1.metadata.url = c2.metadata.url →
      c1.metadata.chunkIndex ≠ c2.metadata.chunkIndex →
      rawVectorId now c1 = some r1 → rawVectorId now c2 = some r2 →
      r1.length ≤ 512 → r2.length ≤ 512 →
      generateVectorId now c1 ≠ generateVectorId now c2) := by
  constructor
  · intro now chunk id hid
    cases hr : rawVectorId now chunk with
    | none => rw [generateVectorId, hr] at hid; cases hid
    | some r =>
      rw [generateVectorId, hr] at hid
      simp only [Option.map_some', Option.some.injEq] at hid
      cases hu : parseUrl chunk.metadata.url with
      | none => rw [rawVectorId, hu] at hr; cases hr
      | some u =>
        refine ⟨?_, ?_, ?_⟩
        · intro hempty
          rw [← hid] at hempty
          have hdata := congrArg String.data hempty
          simp only [List.map_eq_nil_iff, List.take_eq_nil_iff] at hdata
          rcases hdata with hdata | hdata
          · exact absurd hdata (by norm_num)
          · rw [rawVectorId_data now chunk u hu r hr] at hdata
            simp at hdata
        · rw [← hid]
          show ((r.data.take 512).map _).length ≤ 512
          rw [List.length_map, List.length_take]
          omega
        · intro c hc
          rw [← hid] at hc
          obtain ⟨x, _, hx⟩ := List.mem_map.mp hc
          by_cases hcond : x.isAlphanum || x = '_' || x = '-'
          · rw [if_pos hcond] at hx
            rw [← hx]
            have h' : (x.isAlphanum = true ∨ x = '_') ∨ x = '-' := by
              simpa [Bool.or_eq_true, decide_eq_true_eq] using hcond
            tauto
          · rw [if_neg hcond] at hx
            exact Or.inr (Or.inl hx.symm)
  · intro now c1 c2 r1 r2 hurl hidx h1 h2 hl1 hl2
    rw [generateVectorId_of_short now c1 r1 h1 hl1,
      generateVectorId_of_short now c2 r2 h2 hl2]
    intro heq
    injection heq with heq
    exact rawVectorId_inj_chunkIndex now c1 c2 hurl hidx r1 r2 h1 h2 heq

/-- C9 counterexample: two chunks of the same long-URL page (600-character
path) with chunk indices 0 and 1 receive the **same** vector id — the
512-character truncation cuts off the disambiguating index and timestamp —
so ids are not unique within a batch containing both. -/
theorem c9_truncation_collision :
    generateVectorId 12345678 (longChunk 0) = generateVectorId 12345678 (longChunk 1) ∧
    (longChunk 0).metadata.chunkIndex ≠ (longChunk 1).metadata.chunkIndex ∧
    (generateVectorId 12345678 (longChunk 0)).isSome = true :=
  ⟨rfl, by decide, rfl⟩

/-- C9 witness: on a short URL the id is the deterministic sanitized
string `h_io_p_chunk_0_12345678`, non-empty, within 512 characters and in
the allowed character set, and the ids of chunk 0 and chunk 1 differ. -/
theorem c9_vector_id_witness :
    (generateVectorId 12345678 (mkFixtureChunk 0) = some "h_io_p_chunk_0_12345678" ∧
      ("h_io_p_chunk_0_12345678" : String) ≠ "" ∧
      ("h_io_p_chunk_0_12345678" : String).length ≤ 512 ∧
      ∀ c ∈ ("h_io_p_chunk_0_12345678" : String).data,
        c.isAlphanum = true ∨ c = '_' ∨ c = '-') ∧
    generateVectorId 12345678 (mkFixtureChunk 0) ≠ generateVectorId 12345678 (mkFixtureChunk 1) := by
  obtain ⟨hne, hlen, hchars⟩ := c9_vector_id_validity_uniqueness.1 12345678 (mkFixtureChunk 0)
    "h_io_p_chunk_0_12345678" rfl
  exact ⟨⟨rfl, hne, hlen, hchars⟩,
    c9_vector_id_validity_uniqueness.2 12345678 (mkFixtureChunk 0) (mkFixtureChunk 1)
      "h_io_p_chunk_0_12345678" "h_io_p_chunk_1_12345678" rfl (by decide) rfl rfl
      (by decide) (by decide)⟩

/-! ### Crawler lemmas (C1, C4, C6) -/

/-- Each entry of the queue produced by the enqueue loop was already queued
or is a fresh candidate: not visited, among the candidate URLs, at depth
`d + 1`, and enqueued only because the page count plus the frontier size
was still below `maxPages`. -/
theorem enqueueNewUrls_mem (config : WebCrawlerConfig) (vis : List String) (pl : Nat) :
    ∀ (us : List String) (q : List (String × Nat)) (d : Nat) (e : String × Nat),
      e ∈ enqueueNewUrls config vis pl q us d →
      e ∈ q ∨ (e.1 ∉ vis ∧ e.1 ∈ us ∧ e.2 = d + 1 ∧ pl + q.length < config.maxPages) := by
  intro us
  induction us with
  | nil => intro q d e he; exact Or.inl he
  | cons u us ih =>
    intro q d e he
    rw [enqueueNewUrls] at he
    by_cases hc : u ∉ vis ∧ pl + q.length < config.maxPages
    · rw [if_pos hc] at he
      rcases ih (q ++ [(u, d + 1)]) d e he with h | ⟨h1, h2, h3, h4⟩
      · rcases List.mem_append.mp h with h | h
        · exact Or.inl h
        · have he' : e = (u, d + 1) := by simpa using h
          subst he'
          exact Or.inr ⟨hc.1, List.mem_cons_self .., rfl, hc.2⟩
      · refine Or.inr ⟨h1, List.mem_cons_of_mem _ h2, h3, ?_⟩
        rw [List.length_append] at h4
        omega
    · rw [if_neg hc] at he
      rcases ih q d e he with h | ⟨h1, h2, h3, h4⟩
      · exact Or.inl h
      · exact Or.inr ⟨h1, List.mem_cons_of_mem _ h2, h3, h4⟩

/-- `crawlSinglePage` only ever appends to the visited set, and a produced
page carries the dispatched depth and URL, was not previously visited, and
is visited afterwards. -/
theorem crawlSinglePage_spec (web : String → FetchResult) (url : String) (d : Nat)
    (visited : List String) (errors : List CrawlError) :
    (∃ ext, (crawlSinglePage web url d visited errors).1 = visited ++ ext) ∧
    (∀ p, (crawlSinglePage web url d visited errors).2.2 = some p →
      p.depth = d ∧ p.url = url ∧ url ∉ visited ∧
      url ∈ (crawlSinglePage web url d visited errors).1) := by
  unfold crawlSinglePage
  by_cases hv : url ∈ visited
  · rw [if_pos hv]
    exact ⟨⟨[], by simp⟩, fun p hp => by cases hp⟩
  · rw [if_neg hv]
    cases hw : web url with
    | failure msg status =>
      exact ⟨⟨[url], rfl⟩, fun p hp => by cases hp⟩
    | nonHtml =>
      exact ⟨⟨[url], rfl⟩, fun p hp => by cases hp⟩
    | html status info =>
      refine ⟨⟨[url], rfl⟩, fun p hp => ?_⟩
      simp only [Option.some.injEq] at hp
      subst hp
      exact ⟨rfl, rfl, hv, by simp⟩

/-- Specification of batch dispatch: one outcome per batch item; the
visited set only grows; every outcome's depth comes from a batch item and
every produced page carries that depth, was unvisited before dispatch and
is visited after; and the produced pages' URLs are pairwise distinct. -/
theorem dispatchBatch_spec (web : String → FetchResult) :
    ∀ (batch : List (String × Nat)) (visited : List String) (errors : List CrawlError),
      (dispatchBatch web batch visited errors).2.2.length = batch.length ∧
      (∃ ext, (dispatchBatch web batch visited errors).1 = visited ++ ext) ∧
      (∀ o ∈ (dispatchBatch web batch visited errors).2.2,
        (∃ u, (u, o.1) ∈ batch) ∧
        ∀ p, o.2 = some p → p.depth = o.1 ∧ p.url ∉ visited ∧
          p.url ∈ (dispatchBatch web batch visited errors).1) ∧
      ((dispatchBatch web batch visited errors).2.2.filterMap
        (fun o => o.2.map (·.url))).Nodup := by
  intro batch
  induction batch with
  | nil =>
    intro visited errors
    exact ⟨rfl, ⟨[], by simp [dispatchBatch]⟩, by simp [dispatchBatch], by simp [dispatchBatch]⟩
  | cons item rest ih =>
    intro visited errors
    obtain ⟨hext1, hpage1⟩ := crawlSinglePage_spec web item.1 item.2 visited errors
    obtain ⟨ext1, hext1⟩ := hext1
    obtain ⟨hlen, ⟨ext2, hext2⟩, houts, hnodup⟩ :=
      ih (crawlSinglePage web item.1 item.2 visited errors).1
        (crawlSinglePage web item.1 item.2 visited errors).2.1
    refine ⟨?_, ?_, ?_, ?_⟩
    · show _ + 1 = _ + 1
      rw [hlen]
    · exact ⟨ext1 ++ ext2, by rw [show (dispatchBatch web (item :: rest) visited errors).1 =
        (dispatchBatch web rest (crawlSinglePage web item.1 item.2 visited errors).1
          (crawlSinglePage web item.1 item.2 visited errors).2.1).1 from rfl,
        hext2, hext1, List.append_assoc]⟩
    · intro o ho
      rcases List.mem_cons.mp ho with rfl | ho
      · refine ⟨⟨item.1, by simp⟩, fun p hp => ?_⟩
        obtain ⟨hd, hu, hnv, hin⟩ := hpage1 p hp
        refine ⟨hd, by rw [hu]; exact hnv, ?_⟩
        show p.url ∈ (dispatchBatch web rest _ _).1
        rw [hext2, hu]
        exact List.mem_append_left _ hin
      · obtain ⟨⟨u, hu⟩, hps⟩ := houts o ho
        refine ⟨⟨u, List.mem_cons_of_mem _ hu⟩, fun p hp => ?_⟩
        obtain ⟨hd, hnv, hin⟩ := hps p hp
        refine ⟨hd, ?_, hin⟩
        intro hmem
        exact hnv (by rw [hext1]; exact List.mem_append_left _ hmem)
    · show (((item.2, (crawlSinglePage web item.1 item.2 visited errors).2.2) ::
        (dispatchBatch web rest _ _).2.2).filterMap (fun o => o.2.map (·.url))).Nodup
      cases hopt : (crawlSinglePage web item.1 item.2 visited errors).2.2 with
      | none => simpa [List.filterMap_cons, hopt] using hnodup
      | some p =>
        obtain ⟨_, hu, _, hin⟩ := hpage1 p hopt
        rw [List.filterMap_cons]
        simp only [hopt, Option.map_some']
        refine List.nodup_cons.mpr ⟨?_, hnodup⟩
        intro hmem
        obtain ⟨o, ho, hmap⟩ := List.mem_filterMap.mp hmem
        obtain ⟨q, hq, hq2⟩ := Option.map_eq_some'.mp hmap
        have hq2' : q.url = p.url := hq2
        have hnv' := ((houts o ho).2 q hq).2.1
        apply hnv'
        rw [hq2', hu]
        exact hin

/-- Aggregation appends exactly the fulfilled pages, in order. -/
theorem aggregateResults_pages (config : WebCrawlerConfig) (vis : List String) :
    ∀ (os : List (Nat × Option CrawledPage)) (pages : List CrawledPage)
      (queue : List (String × Nat)),
      (aggregateResults config vis os pages queue).1 = pages ++ os.filterMap (·.2) := by
  intro os
  induction os with
  | nil => intro pages queue; simp [aggregateResults]
  | cons o rest ih =>
    intro pages queue
    cases ho : o.2 with
    | none =>
      rw [show aggregateResults config vis (o :: rest) pages queue =
        (match o.2 with
          | none => aggregateResults config vis rest pages queue
          | some page =>
            if o.1 < config.maxDepth then
              aggregateResults config vis rest (pages ++ [page])
                (enqueueNewUrls config vis (pages ++ [page]).length queue
                  (extractUrls page config) o.1)
            else aggregateResults config vis rest (pages ++ [page]) queue) from rfl, ho]
      dsimp only
      rw [ih, List.filterMap_cons, ho]
    | some page =>
      rw [show aggregateResults config vis (o :: rest) pages queue =
        (match o.2 with
          | none => aggregateResults config vis rest pages queue
          | some page =>
            if o.1 < config.maxDepth then
              aggregateResults config vis rest (pages ++ [page])
                (enqueueNewUrls config vis (pages ++ [page]).length queue
                  (extractUrls page config) o.1)
            else aggregateResults config vis rest (pages ++ [page]) queue) from rfl, ho]
      dsimp only
      by_cases hd : o.1 < config.maxDepth
      · rw [if_pos hd, ih, List.filterMap_cons, ho]
        simp
      · rw [if_neg hd, ih, List.filterMap_cons, ho]
        simp

/-- Every entry of the queue after aggregation was already in the frontier
or is a fresh link: not in the visited set, enqueued at the parent
outcome's depth plus one, with that parent below `maxDepth`. -/
theorem aggregateResults_queue (config : WebCrawlerConfig) (vis : List String) :
    ∀ (os : List (Nat × Option CrawledPage)) (pages : List CrawledPage)
      (queue : List (String × Nat)) (e : String × Nat),
      e ∈ (aggregateResults config vis os pages queue).2 →
      e ∈ queue ∨ (e.1 ∉ vis ∧ ∃ o ∈ os, o.1 < config.maxDepth ∧ e.2 = o.1 + 1) := by
  intro os
  induction os with
  | nil => intro pages queue e he; exact Or.inl (by simpa [aggregateResults] using he)
  | cons o rest ih =>
    intro pages queue e he
    rw [show aggregateResults config vis (o :: rest) pages queue =
      (match o.2 with
        | none => aggregateResults config vis rest pages queue
        | some page =>
          if o.1 < config.maxDepth then
            aggregateResults config vis rest (pages ++ [page])
              (enqueueNewUrls config vis (pages ++ [page]).length queue
                (extractUrls page config) o.1)
          else aggregateResults config vis rest (pages ++ [page]) queue) from rfl] at he
    cases ho : o.2 with
    | none =>
      rw [ho] at he
      dsimp only at he
      rcases ih pages queue e he with h | ⟨h1, o', ho', h2⟩
      · exact Or.inl h
      · exact Or.inr ⟨h1, o', List.mem_cons_of_mem _ ho', h2⟩
    | some page =>
      rw [ho] at he
      dsimp only at he
      by_cases hd : o.1 < config.maxDepth
      · rw [if_pos hd] at he
        rcases ih _ _ e he with h | ⟨h1, o', ho', h2⟩
        · rcases enqueueNewUrls_mem config vis _ _ _ _ e h with h' | ⟨h1, _, h3, _⟩
          · exact Or.inl h'
          · exact Or.inr ⟨h1, o, List.mem_cons_self .., hd, h3⟩
        · exact Or.inr ⟨h1, o', List.mem_cons_of_mem _ ho', h2⟩
      · rw [if_neg hd] at he
        rcases ih _ _ e he with h | ⟨h1, o', ho', h2⟩
        · exact Or.inl h
        · exact Or.inr ⟨h1, o', List.mem_cons_of_mem _ ho', h2⟩

/-- One crawl step appends exactly the batch's fulfilled pages. -/
theorem crawlStep_pages (web : String → FetchResult) (config : WebCrawlerConfig)
    (s : CrawlState) :
    (crawlStep web config s).pages = s.pages ++
      ((dispatchBatch web (s.queue.take config.maxConcurrent) s.visited
        s.errors).2.2.filterMap (·.2)) := by
  show (aggregateResults config _ _ s.pages _).1 = _
  rw [aggregateResults_pages]

/-- One crawl step grows the page list by at most `maxConcurrent` pages. -/
theorem crawlStep_pages_le (web : String → FetchResult) (config : WebCrawlerConfig)
    (s : CrawlState) :
    (crawlStep web config s).pages.length ≤ s.pages.length + config.maxConcurrent := by
  rw [crawlStep_pages, List.length_append]
  have h1 := List.length_filterMap_le (·.2)
    (dispatchBatch web (s.queue.take config.maxConcurrent) s.visited s.errors).2.2
  have h2 := (dispatchBatch_spec web (s.queue.take config.maxConcurrent) s.visited
    s.errors).1
  have h3 : (s.queue.take config.maxConcurrent).length ≤ config.maxConcurrent := by
    rw [List.length_take]
    omega
  omega

/-- One crawl step preserves the depth bound on frontier entries and
collected pages. -/
theorem crawlStep_depth (web : String → FetchResult) (config : WebCrawlerConfig)
    (s : CrawlState) (hq : ∀ e ∈ s.queue, e.2 ≤ config.maxDepth)
    (hp : ∀ p ∈ s.pages, p.depth ≤ config.maxDepth) :
    (∀ e ∈ (crawlStep web config s).queue, e.2 ≤ config.maxDepth) ∧
    (∀ p ∈ (crawlStep web config s).pages, p.depth ≤ config.maxDepth) := by
  constructor
  · intro e he
    have he' : e ∈ (aggregateResults config
        (dispatchBatch web (s.queue.take config.maxConcurrent) s.visited s.errors).1
        (dispatchBatch web (s.queue.take config.maxConcurrent) s.visited s.errors).2.2
        s.pages (s.queue.drop config.maxConcurrent)).2 := he
    rcases aggregateResults_queue config _ _ _ _ e he' with h | ⟨_, o, _, hd, h2⟩
    · exact hq e (List.drop_subset _ _ h)
    · omega
  · intro p hp'
    rw [crawlStep_pages] at hp'
    rcases List.mem_append.mp hp' with h | h
    · exact hp p h
    · obtain ⟨o, ho, hsome⟩ := List.mem_filterMap.mp h
      obtain ⟨⟨u, hu⟩, hps⟩ := (dispatchBatch_spec web (s.queue.take config.maxConcurrent)
        s.visited s.errors).2.2.1 o ho
      have hd := (hps p hsome).1
      have : o.1 ≤ config.maxDepth := hq (u, o.1) (List.take_subset _ _ hu)
      omega

/-- The crawl loop never collects more than
`maxPages - 1 + maxConcurrent` pages beyond what it starts with. -/
theorem crawlLoop_pages_le (web : String → FetchResult) (config : WebCrawlerConfig) :
    ∀ (fuel : Nat) (s : CrawlState),
      (crawlLoop web config fuel s).pages.length ≤
        max s.pages.length (config.maxPages - 1 + config.maxConcurrent) := by
  intro fuel
  induction fuel with
  | zero => intro s; exact le_max_left ..
  | succ fuel ih =>
    intro s
    by_cases hc : s.queue ≠ [] ∧ s.pages.length < config.maxPages
    · rw [crawlLoop, if_pos hc]
      refine le_trans (ih (crawlStep web config s)) (max_le ?_ (le_max_right ..))
      have h1 := crawlStep_pages_le web config s
      have h2 : (crawlStep web config s).pages.length ≤
          config.maxPages - 1 + config.maxConcurrent := by omega
      exact le_trans h2 (le_max_right ..)
    · rw [crawlLoop, if_neg hc]
      exact le_max_left ..

/-- The crawl loop preserves the depth bound. -/
theorem crawlLoop_depth (web : String → FetchResult) (config : WebCrawlerConfig) :
    ∀ (fuel : Nat) (s : CrawlState),
      (∀ e ∈ s.queue, e.2 ≤ config.maxDepth) →
      (∀ p ∈ s.pages, p.depth ≤ config.maxDepth) →
      ∀ p ∈ (crawlLoop web config fuel s).pages, p.depth ≤ config.maxDepth := by
  intro fuel
  induction fuel with
  | zero => intro s _ hp; exact hp
  | succ fuel ih =>
    intro s hq hp
    by_cases hc : s.queue ≠ [] ∧ s.pages.length < config.maxPages
    · rw [crawlLoop, if_pos hc]
      obtain ⟨hq', hp'⟩ := crawlStep_depth web config s hq hp
      exact ih (crawlStep web config s) hq' hp'
    · rw [crawlLoop, if_neg hc]
      exact hp

/-- `crawlConfig` only changes the allowed-domain list of the merged
request configuration. -/
theorem crawlConfig_fields (request : CrawlRequest) (baseDomain : String) :
    (crawlConfig request baseDomain).maxPages = (mergeConfig request).maxPages ∧
    (crawlConfig request baseDomain).maxDepth = (mergeConfig request).maxDepth ∧
    (crawlConfig request baseDomain).maxConcurrent = (mergeConfig request).maxConcurrent := by
  unfold crawlConfig
  dsimp only
  by_cases h : (mergeConfig request).allowedDomains.length = 0
  · rw [if_pos h]; exact ⟨rfl, rfl, rfl⟩
  · rw [if_neg h]; exact ⟨rfl, rfl, rfl⟩

/-- The merged configuration of a request with explicit positive
`maxPages` and `maxDepth` keeps them, and `maxConcurrent` stays at its
(request-inaccessible) default of 3. -/
theorem mergeConfig_fields (request : CrawlRequest) (mp md : Nat)
    (hmp : request.maxPages = some (mp + 1)) (hmd : request.maxDepth = some (md + 1)) :
    (mergeConfig request).maxPages = mp + 1 ∧
    (mergeConfig request).maxDepth = md + 1 ∧
    (mergeConfig request).maxConcurrent = 3 := by
  refine ⟨?_, ?_, rfl⟩ <;> simp [mergeConfig, hmp, hmd, jsOrNat]

/-- Bounds for the crawl loop started from the seeded initial state:
at most `maxPages - 1 + maxConcurrent` pages, all at depth `≤ maxDepth`. -/
theorem crawlLoop_init_bounds (web : String → FetchResult) (config : WebCrawlerConfig)
    (fuel : Nat) (baseUrl : String) :
    (crawlLoop web config fuel (crawlInit baseUrl)).pages.length ≤
      config.maxPages - 1 + config.maxConcurrent ∧
    ∀ p ∈ (crawlLoop web config fuel (crawlInit baseUrl)).pages,
      p.depth ≤ config.maxDepth := by
  constructor
  · have h := crawlLoop_pages_le web config fuel (crawlInit baseUrl)
    simpa [crawlInit] using h
  · exact crawlLoop_depth web config fuel (crawlInit baseUrl)
      (by simp [crawlInit]) (by simp [crawlInit])

/-- One crawl step preserves "page URLs are pairwise distinct and all
visited". -/
theorem crawlStep_nodup (web : String → FetchResult) (config : WebCrawlerConfig)
    (s : CrawlState) (hnd : (s.pages.map (·.url)).Nodup)
    (hin : ∀ p ∈ s.pages, p.url ∈ s.visited) :
    ((crawlStep web config s).pages.map (·.url)).Nodup ∧
    (∀ p ∈ (crawlStep web config s).pages, p.url ∈ (crawlStep web config s).visited) := by
  obtain ⟨hlen, ⟨ext, hext⟩, houts, hnodup⟩ :=
    dispatchBatch_spec web (s.queue.take config.maxConcurrent) s.visited s.errors
  have hvis : (crawlStep web config s).visited =
      (dispatchBatch web (s.queue.take config.maxConcurrent) s.visited s.errors).1 := rfl
  constructor
  · rw [crawlStep_pages, List.map_append, List.map_filterMap]
    rw [List.nodup_append]
    refine ⟨hnd, hnodup, List.disjoint_left.mpr ?_⟩
    intro a ha ha'
    obtain ⟨p, hp, hpa⟩ := List.mem_map.mp ha
    obtain ⟨o, ho, hoa⟩ := List.mem_filterMap.mp ha'
    obtain ⟨q, hq, hqa⟩ := Option.map_eq_some'.mp hoa
    have hq' : q.url = a := hqa
    have hnv := ((houts o ho).2 q hq).2.1
    rw [hq'] at hnv
    rw [← hpa] at hnv
    exact hnv (hin p hp)
  · intro p hp
    rw [crawlStep_pages] at hp
    rcases List.mem_append.mp hp with h | h
    · rw [hvis, hext]
      exact List.mem_append_left _ (hin p h)
    · obtain ⟨o, ho, hsome⟩ := List.mem_filterMap.mp h
      rw [hvis]
      exact ((houts o ho).2 p hsome).2.2

/-- The crawl loop preserves it too. -/
theorem crawlLoop_nodup (web : String → FetchResult) (config : WebCrawlerConfig) :
    ∀ (fuel : Nat) (s : CrawlState), (s.pages.map (·.url)).Nodup →
      (∀ p ∈ s.pages, p.url ∈ s.visited) →
      ((crawlLoop web config fuel s).pages.map (·.url)).Nodup := by
  intro fuel
  induction fuel with
  | zero => intro s hnd _; exact hnd
  | succ fuel ih =>
    intro s hnd hin
    by_cases hc : s.queue ≠ [] ∧ s.pages.length < config.maxPages
    · rw [crawlLoop, if_pos hc]
      obtain ⟨hnd', hin'⟩ := crawlStep_nodup web config s hnd hin
      exact ih (crawlStep web config s) hnd' hin'
    · rw [crawlLoop, if_neg hc]
      exact hnd

/-- C1 (amended): for every crawl request with a well-formed seed URL,
`maxPages ≥ 1` and `maxDepth ≥ 1`, the returned pages satisfy
`len(pages) ≤ maxPages + maxConcurrent - 1 = maxPages + 2` (the batch
dispatched when `pagesCrawled = maxPages - 1` can overshoot the budget by
up to `maxConcurrent - 1 = 2` pages, because the budget is only re-checked
between batches), and every returned page has `depth ≤ maxDepth`. -/
theorem c1_page_budget_and_depth (web : String → FetchResult) (fuel : Nat)
    (req : CrawlRequest) (mp md : Nat) (r : CrawlResult)
    (hmp : req.maxPages = some mp) (hmp1 : 1 ≤ mp)
    (hmd : req.maxDepth = some md) (hmd1 : 1 ≤ md)
    (h : crawlDocumentation web fuel req = .ok r) :
    r.data.pages.length ≤ mp + 2 ∧ ∀ p ∈ r.data.pages, p.depth ≤ md := by
  obtain ⟨k, rfl⟩ : ∃ k, mp = k + 1 := ⟨mp - 1, by omega⟩
  obtain ⟨j, rfl⟩ : ∃ j, md = j + 1 := ⟨md - 1, by omega⟩
  obtain ⟨hP, hD, hC⟩ := mergeConfig_fields req k j hmp hmd
  unfold crawlDocumentation at h
  cases hu : parseUrl req.url with
  | none => rw [hu] at h; exact absurd h (by simp)
  | some u0 =>
    rw [hu] at h
    injection h with h
    subst h
    dsimp only
    obtain ⟨hP', hD', hC'⟩ := crawlConfig_fields req u0.host
    constructor
    · have hb := (crawlLoop_init_bounds web (crawlConfig req u0.host) fuel
        (Url.href {u0 with hash := ""})).1
      rw [hP', hC', hP, hC] at hb
      omega
    · intro p hp
      have hb := (crawlLoop_init_bounds web (crawlConfig req u0.host) fuel
        (Url.href {u0 with hash := ""})).2 p hp
      rw [hD', hD] at hb
      exact hb

/-- C1 counterexample: crawling the `webC1` fixture with `maxPages = 4`
collects 5 pages — the claimed bound `len(pages) ≤ maxPages` fails.  (The
batch `[b, c]`-siblings fulfilled after `a` fails pushes the count from 3
to within budget, and the already-dispatched next batch `[e, f]` then
overshoots to 5.) -/
theorem c1_budget_counterexample :
    okPagesLen (crawlDocumentation webC1 10 reqC1) = some 5 ∧
    reqC1.maxPages = some 4 ∧ ¬ ((5 : Nat) ≤ 4) :=
  ⟨rfl, rfl, by norm_num⟩

/-- C1 witness: the amended bound instantiated on the `webC1` fixture —
5 pages ≤ 4 + 2 and all depths ≤ 2. -/
theorem c1_page_budget_witness :
    crawlDocumentation webC1 10 reqC1 = .ok rC1 ∧ reqC1.maxPages = some 4 ∧
    (1 : Nat) ≤ 4 ∧ reqC1.maxDepth = some 2 ∧ (1 : Nat) ≤ 2 ∧
    (rC1.data.pages.length ≤ 4 + 2 ∧ ∀ p ∈ rC1.data.pages, p.depth ≤ 2) :=
  ⟨rfl, rfl, by norm_num, rfl, by norm_num,
    c1_page_budget_and_depth webC1 10 reqC1 4 2 rC1 rfl (by norm_num) rfl (by norm_num) rfl⟩

/-- C6: `crawlDocumentation` fails exactly when the seed URL is malformed
(per-page failures never abort it), and a failed fetch of an unvisited URL
appends exactly one error entry `{url, error, status?}`, marks the URL
visited, and yields no page — the remaining batch items are dispatched
independently afterwards. -/
theorem c6_seed_only_failure :
    (∀ (web : String → FetchResult) (fuel : Nat) (req : CrawlRequest),
      (∃ e, crawlDocumentation web fuel req = .error e) ↔ parseUrl req.url = none) ∧
    (∀ (web : String → FetchResult) (url : String) (d : Nat) (vis : List String)
      (errs : List CrawlError) (msg : String) (st : Option Nat),
      url ∉ vis → web url = .failure msg st →
      crawlSinglePage web url d vis errs =
        (vis ++ [url], errs ++ [⟨url, msg, st⟩], none)) := by
  constructor
  · intro web fuel req
    constructor
    · rintro ⟨e, he⟩
      cases hu : parseUrl req.url with
      | none => rfl
      | some u0 =>
        unfold crawlDocumentation at he
        rw [hu] at he
        exact absurd he (by simp)
    · intro hu
      exact ⟨⟨"Failed to crawl documentation", 500⟩, by unfold crawlDocumentation; rw [hu]⟩
  · intro web url d vis errs msg st hv hw
    unfold crawlSinglePage
    rw [if_neg hv, hw]

/-- C6 witness: the malformed seed `"not a url"` makes the crawl fail, and
the fixture's timing-out page `/a` is recorded as exactly one error entry
without aborting anything. -/
theorem c6_seed_only_failure_witness :
    (∃ e, crawlDocumentation webFail 1 reqBadSeed = .error e) ∧
    ("http://d.io/a" ∉ (["http://d.io/"] : List String) ∧
      webC1 "http://d.io/a" = .failure "timeout of 30000ms exceeded" none ∧
      crawlSinglePage webC1 "http://d.io/a" 1 ["http://d.io/"] [] =
        (["http://d.io/", "http://d.io/a"],
          [⟨"http://d.io/a", "timeout of 30000ms exceeded", none⟩], none)) := by
  refine ⟨(c6_seed_only_failure.1 webFail 1 reqBadSeed).mpr rfl, by decide, rfl, ?_⟩
  exact c6_seed_only_failure.2 webC1 "http://d.io/a" 1 ["http://d.io/"] []
    "timeout of 30000ms exceeded" none (by decide) rfl

/-- C4 (amended): a candidate link is deduplicated against the visited set
(not against the frontier) before being enqueued at `depth + 1`, and only
while `pagesCrawled + frontierSize < maxPages`; consequently a URL *can*
appear twice in the frontier (see the counterexample), but each URL is
still crawled at most once — the collected pages' URLs are pairwise
distinct. -/
theorem c4_enqueue_dedup_and_crawl_once :
    (∀ (config : WebCrawlerConfig) (vis : List String) (pl : Nat)
      (q : List (String × Nat)) (us : List String) (d : Nat) (e : String × Nat),
      e ∈ enqueueNewUrls config vis pl q us d →
      e ∈ q ∨ (e.1 ∉ vis ∧ e.1 ∈ us ∧ e.2 = d + 1 ∧ pl + q.length < config.maxPages)) ∧
    (∀ (web : String → FetchResult) (config : WebCrawlerConfig) (s : CrawlState)
      (e : String × Nat), e ∈ (crawlStep web config s).queue →
      e ∈ s.queue ∨ e.1 ∉ (crawlStep web config s).visited) ∧
    (∀ (web : String → FetchResult) (config : WebCrawlerConfig) (fuel : Nat)
      (baseUrl : String),
      ((crawlLoop web config fuel (crawlInit baseUrl)).pages.map (·.url)).Nodup) := by
  refine ⟨fun config vis pl q us d e he => enqueueNewUrls_mem config vis pl us q d e he,
    ?_, ?_⟩
  · intro web config s e he
    have he' : e ∈ (aggregateResults config
        (dispatchBatch web (s.queue.take config.maxConcurrent) s.visited s.errors).1
        (dispatchBatch web (s.queue.take config.maxConcurrent) s.visited s.errors).2.2
        s.pages (s.queue.drop config.maxConcurrent)).2 := he
    rcases aggregateResults_queue config _ _ _ _ e he' with h | ⟨h1, _⟩
    · exact Or.inl (List.drop_subset _ _ h)
    · exact Or.inr h1
  · intro web config fuel baseUrl
    exact crawlLoop_nodup web config fuel (crawlInit baseUrl) (by simp [crawlInit])
      (by simp [crawlInit])

/-- C4 counterexample: on the `webC4` fixture (seed links `/a` and `/b`,
both of which link `/c`), after two loop iterations the frontier holds
`/c` twice — the claim that no URL ever appears twice in the frontier is
false (the enqueue guard checks the visited set only). -/
theorem c4_duplicate_frontier :
    (crawlLoop webC4 cfgC4 2 (crawlInit "http://e.io/")).queue =
      [("http://e.io/c", 2), ("http://e.io/c", 2)] ∧
    ¬ ((crawlLoop webC4 cfgC4 2 (crawlInit "http://e.io/")).queue.map (·.1)).Nodup ∧
    (mergeConfig reqC4).allowedDomains = [] :=
  ⟨rfl, by decide, rfl⟩

/-- C4 witness: the enqueue characterization instantiated on a fresh
candidate link of the `webC4` fixture, the per-step frontier property on
the first step, and crawl-at-most-once on the fixture run. -/
theorem c4_enqueue_dedup_witness :
    (("http://e.io/c", 2) ∈ enqueueNewUrls cfgC4
        ["http://e.io/", "http://e.io/a", "http://e.io/b"] 2 []
        ["http://e.io/c"] 1) ∧
    ((("http://e.io/c", 2) : String × Nat) ∈ ([] : List (String × Nat)) ∨
      ("http://e.io/c" ∉ ["http://e.io/", "http://e.io/a", "http://e.io/b"] ∧
        "http://e.io/c" ∈ ["http://e.io/c"] ∧ (2 : Nat) = 1 + 1 ∧
        2 + ([] : List (String × Nat)).length < cfgC4.maxPages)) ∧
    ((("http://e.io/a", 1) : String × Nat) ∈ (crawlInit "http://e.io/").queue ∨
      "http://e.io/a" ∉ (crawlStep webC4 cfgC4 (crawlInit "http://e.io/")).visited) ∧
    ((crawlLoop webC4 cfgC4 5 (crawlInit "http://e.io/")).pages.map (·.url)).Nodup := by
  refine ⟨by decide, ?_, ?_, ?_⟩
  · exact c4_enqueue_dedup_and_crawl_once.1 cfgC4
      ["http://e.io/", "http://e.io/a", "http://e.io/b"] 2 [] ["http://e.io/c"] 1
      ("http://e.io/c", 2) (by decide)
  · exact c4_enqueue_dedup_and_crawl_once.2.1 webC4 cfgC4 (crawlInit "http://e.io/")
      ("http://e.io/a", 1) (by decide)
  · exact c4_enqueue_dedup_and_crawl_once.2.2 webC4 cfgC4 5 "http://e.io/"
